import Mathlib

/-!
# Verification of the `updatehandler` update coordinator

Shallow embedding of the update coordinator of `aos_updatemanager`
(package `updatehandler`): the FSM event table, the priority scheduler
`doPriorityOperations`, the reboot loop `componentOperation`, the
per-component `prepareComponent` pipeline, and the transition callbacks
`onPrepareState`, `onUpdateState`, `onApplyState`, `onStateChanged`.

Modelling conventions:
* Go errors are `Option String` (`none` = nil error) or `Except String`.
* Storage operations are modelled as always succeeding writes over
  association lists; a failing read (`GetAosVersion` on a missing id)
  is a `none` lookup, matching the `err == nil` guards in the source.
* A closure `operation func() error` is modelled by its observable
  result; concurrent execution of one priority group is sequentialised
  in list order (the effects the claims mention act on per-component
  keys and commute across components of a group).
-/

namespace UpdateHandler

/-! ## FSM states and events (consts `stateIdle` … and `eventPrepare` …) -/

/-- Coordinator FSM states, from the `stateIdle`/`statePrepared`/
`stateUpdated`/`stateFailed` constants. -/
inductive UpdateState where
  | idle
  | prepared
  | updated
  | failed
  deriving DecidableEq, Repr

/-- Controller events, from the `eventPrepare`/`eventUpdate`/`eventApply`/
`eventRevert` constants. -/
inductive UMEvent where
  | prepare
  | update
  | apply
  | revert
  deriving DecidableEq, Repr

/-- The wire name of an event (the Go string constant). -/
def eventName : UMEvent → String
  | .prepare => "prepare"
  | .update => "update"
  | .apply => "apply"
  | .revert => "revert"

/-- The wire name of a state (the Go string constant). -/
def stateName : UpdateState → String
  | .idle => "idle"
  | .prepared => "prepared"
  | .updated => "updated"
  | .failed => "failed"

/-- Allowed source states of each event, from the `fsm.Events` table passed
to `fsm.NewFSM` in `New`. -/
def eventSrc : UMEvent → List UpdateState
  | .prepare => [.idle]
  | .update => [.prepared]
  | .apply => [.updated]
  | .revert => [.prepared, .updated, .failed]

/-- Destination state of each event, from the same `fsm.Events` table. -/
def eventDst : UMEvent → UpdateState
  | .prepare => .prepared
  | .update => .updated
  | .apply => .idle
  | .revert => .idle

/-- `fsm.Cannot(event)` is the negation of this: the event is allowed iff
the current state is in its source list. -/
def fsmCan (e : UMEvent) (s : UpdateState) : Bool :=
  decide (s ∈ eventSrc e)

/-- `Handler.sendEvent`: if the FSM cannot fire the event in the current
state it returns the wrong-state error and leaves the FSM untouched;
otherwise the FSM moves to the event's destination (the transition
callbacks may later move it further, modelled separately). Result:
(new FSM state, returned error). -/
def sendEvent (s : UpdateState) (e : UMEvent) : UpdateState × Option String :=
  if fsmCan e s then
    (eventDst e, none)
  else
    (s, some ("error sending event " ++ eventName e ++ " in state: " ++ stateName s))

/-! ## Priority scheduler (`doPriorityOperations`) -/

/-- A `priorityOperation`: the Go struct holds a priority and a closure;
the closure is modelled by its payload (identifying the operation) and
the error it returns when run. -/
structure PriorityOperation (α : Type) where
  priority : Nat
  payload : α
  result : Option String
  deriving DecidableEq, Repr

/-- Descending order used by `sort.Slice(operations, …priority > …priority)`. -/
def opGE {α : Type} (a b : PriorityOperation α) : Prop :=
  b.priority ≤ a.priority

instance {α : Type} : DecidableRel (opGE (α := α)) :=
  fun a b => inferInstanceAs (Decidable (b.priority ≤ a.priority))

instance {α : Type} : IsTotal (PriorityOperation α) opGE :=
  ⟨fun a b => Nat.le_total b.priority a.priority⟩

instance {α : Type} : IsTrans (PriorityOperation α) opGE :=
  ⟨fun _ _ _ hab hbc => Nat.le_trans hbc hab⟩

/-- The sort performed at the top of `doPriorityOperations`. -/
def sortOps {α : Type} (ops : List (PriorityOperation α)) : List (PriorityOperation α) :=
  ops.insertionSort opGE

/-- `if err == nil { err = groupErr }` merging. -/
def mergeErr (err groupErr : Option String) : Option String :=
  match err with
  | some e => some e
  | none => groupErr

/-- The main loop of `doPriorityOperations` over the sorted list.
Arguments: remaining operations, current group priority, current group
error (`groupErr`), retained error (`err`), operations executed so far.
Returns the executed operations in execution order and the returned
error.  At a priority change the group error is examined exactly as in
the source: with `stopOnError` it is returned at once, otherwise merged
into the retained error. -/
def runOps {α : Type} (stopOnError : Bool) :
    List (PriorityOperation α) → Nat → Option String → Option String →
    List (PriorityOperation α) → List (PriorityOperation α) × Option String
  | [], _, groupErr, err, executed => (executed, mergeErr err groupErr)
  | item :: rest, priority, groupErr, err, executed =>
    if item.priority = priority then
      runOps stopOnError rest priority (mergeErr groupErr item.result) err (executed ++ [item])
    else
      match groupErr with
      | some ge =>
        if stopOnError then
          (executed, some ge)
        else
          runOps stopOnError rest item.priority item.result (mergeErr err (some ge))
            (executed ++ [item])
      | none => runOps stopOnError rest item.priority item.result err (executed ++ [item])

/-- `doPriorityOperations`: sort descending by priority, then run the
loop starting with the head's priority.  Returns the list of operations
that were actually run (in order) and the error returned. -/
def doPriorityOperations {α : Type} (ops : List (PriorityOperation α)) (stopOnError : Bool) :
    List (PriorityOperation α) × Option String :=
  match sortOps ops with
  | [] => ([], none)
  | first :: rest => runOps stopOnError (first :: rest) first.priority none none []

/-- The first operation of a list whose closure returns an error. -/
def firstFailing {α : Type} (l : List (PriorityOperation α)) : Option (PriorityOperation α) :=
  l.find? (fun op => op.result.isSome)

/-- The error of the first failing operation, if any. -/
def firstErr {α : Type} (l : List (PriorityOperation α)) : Option String :=
  (firstFailing l).bind PriorityOperation.result

/-! ### Scheduler lemmas -/

theorem mergeErr_none_left (g : Option String) : mergeErr none g = g := rfl

theorem mergeErr_some (e : String) (g : Option String) : mergeErr (some e) g = some e := rfl

theorem mergeErr_none_right (e : Option String) : mergeErr e none = e := by
  cases e <;> rfl

theorem mergeErr_assoc (a b c : Option String) :
    mergeErr (mergeErr a b) c = mergeErr a (mergeErr b c) := by
  cases a <;> cases b <;> rfl

theorem firstErr_nil {α : Type} : firstErr ([] : List (PriorityOperation α)) = none := rfl

theorem firstErr_cons {α : Type} (x : PriorityOperation α) (l : List (PriorityOperation α)) :
    firstErr (x :: l) = mergeErr x.result (firstErr l) := by
  unfold firstErr firstFailing
  rcases hx : x.result with _ | m
  · simp [List.find?, Option.isSome, hx, mergeErr]
  · simp [List.find?, Option.isSome, hx, mergeErr]

theorem firstFailing_cons_none {α : Type} (x : PriorityOperation α)
    (l : List (PriorityOperation α)) (hx : x.result = none) :
    firstFailing (x :: l) = firstFailing l := by
  unfold firstFailing
  simp [List.find?, hx, Option.isSome]

theorem firstFailing_cons_some {α : Type} (x : PriorityOperation α)
    (l : List (PriorityOperation α)) (m : String) (hx : x.result = some m) :
    firstFailing (x :: l) = some x := by
  unfold firstFailing
  simp [List.find?, hx, Option.isSome]

/-- With `stopOnError = false` the loop executes every remaining
operation and retains the first error seen (after the pending retained
and group errors). -/
theorem runOps_stop_false {α : Type} (l : List (PriorityOperation α)) :
    ∀ (p : Nat) (g e : Option String) (acc : List (PriorityOperation α)),
    runOps false l p g e acc = (acc ++ l, mergeErr e (mergeErr g (firstErr l))) := by
  induction l with
  | nil =>
    intro p g e acc
    simp [runOps, firstErr_nil, mergeErr_none_right]
  | cons item rest ih =>
    intro p g e acc
    simp only [runOps]
    by_cases hp : item.priority = p
    · simp only [hp, if_true]
      rw [ih, firstErr_cons, mergeErr_assoc]
      simp
    · simp only [hp, if_false]
      cases hg : g with
      | none =>
        rw [ih, firstErr_cons]
        simp [mergeErr_none_left]
      | some ge =>
        simp only [Bool.false_eq_true, if_false]
        rw [ih, firstErr_cons]
        rw [show mergeErr (mergeErr e (some ge)) (mergeErr item.result (firstErr rest)) =
            mergeErr e (mergeErr (some ge) (mergeErr item.result (firstErr rest))) from
          mergeErr_assoc _ _ _]
        simp [mergeErr_some]

/-- With `stopOnError = true` and a pending group error, the loop
finishes the current priority group and returns the pending error. -/
theorem runOps_stop_true_groupErr {α : Type} (l : List (PriorityOperation α)) :
    ∀ (p : Nat) (ge : String) (acc : List (PriorityOperation α)),
    (∀ y ∈ l, y.priority ≤ p) →
    runOps true l p (some ge) none acc =
      (acc ++ l.takeWhile (fun y => decide (y.priority = p)), some ge) := by
  induction l with
  | nil =>
    intro p ge acc _
    simp [runOps, mergeErr]
  | cons item rest ih =>
    intro p ge acc hbound
    simp only [runOps]
    by_cases hp : item.priority = p
    · simp only [hp, if_true]
      rw [show mergeErr (some ge) item.result = some ge from rfl]
      rw [ih p ge (acc ++ [item]) (fun y hy => hbound y (List.mem_cons_of_mem _ hy))]
      rw [List.takeWhile_cons]
      simp [hp]
    · simp only [hp, if_false, if_true]
      rw [List.takeWhile_cons]
      simp [hp]

/-- Predicates agreeing on a list give the same `takeWhile`. -/
theorem takeWhile_congr_mem {α : Type} (l : List α) :
    ∀ (p q : α → Bool), (∀ y ∈ l, p y = q y) → l.takeWhile p = l.takeWhile q := by
  induction l with
  | nil => intro p q _; rfl
  | cons x rest ih =>
    intro p q h
    rw [List.takeWhile_cons, List.takeWhile_cons, h x (List.mem_cons_self x rest),
      ih p q (fun y hy => h y (List.mem_cons_of_mem _ hy))]

/-- On a descending list, taking while the priority stays at least `q`
is the same as filtering for priority at least `q`. -/
theorem sorted_takeWhile_eq_filter {α : Type} (l : List (PriorityOperation α)) (q : Nat) :
    l.Pairwise opGE →
    l.takeWhile (fun y => decide (q ≤ y.priority)) =
      l.filter (fun y => decide (q ≤ y.priority)) := by
  induction l with
  | nil => intro _; rfl
  | cons x rest ih =>
    intro hsort
    rw [List.pairwise_cons] at hsort
    rw [List.takeWhile_cons, List.filter_cons]
    by_cases hx : q ≤ x.priority
    · simp [hx, ih hsort.2]
    · have hrest : rest.filter (fun y => decide (q ≤ y.priority)) = [] := by
        apply List.filter_eq_nil_iff.mpr
        intro y hy
        have hyx : y.priority ≤ x.priority := hsort.1 y hy
        simp only [decide_eq_true_eq]
        omega
      simp [hx, hrest]

/-- With `stopOnError = true` and no pending error, the loop over a
descending list bounded by the current priority runs every operation up
to and including the whole priority group of the first failing
operation (or all of them when none fails) and returns that operation's
error. -/
theorem runOps_stop_true {α : Type} (l : List (PriorityOperation α)) :
    ∀ (p : Nat) (acc : List (PriorityOperation α)),
    l.Pairwise opGE → (∀ y ∈ l, y.priority ≤ p) →
    runOps true l p none none acc =
      (match firstFailing l with
       | none => acc ++ l
       | some f => acc ++ l.takeWhile (fun y => decide (f.priority ≤ y.priority)),
       firstErr l) := by
  induction l with
  | nil =>
    intro p acc _ _
    simp [runOps, firstFailing, firstErr, mergeErr]
  | cons item rest ih =>
    intro p acc hsort hbound
    have hrest_sort : rest.Pairwise opGE := (List.pairwise_cons.mp hsort).2
    have hrest_bound_item : ∀ y ∈ rest, y.priority ≤ item.priority :=
      fun y hy => (List.pairwise_cons.mp hsort).1 y hy
    -- After executing `item` the continuation has current priority equal
    -- to `item.priority` in both branches of the priority comparison.
    have hcont : runOps true (item :: rest) p none none acc =
        runOps true rest item.priority item.result none (acc ++ [item]) := by
      simp only [runOps]
      by_cases hp : item.priority = p
      · simp only [hp, if_true, mergeErr_none_left]
      · simp only [hp, if_false]
    rw [hcont]
    rcases hres : item.result with _ | m
    · -- item succeeds: recurse
      rw [ih item.priority (acc ++ [item]) hrest_sort hrest_bound_item]
      rw [firstErr_cons, hres, mergeErr_none_left, firstFailing_cons_none item rest hres]
      rcases hff : firstFailing rest with _ | f
      · simp
      · have hf_mem : f ∈ rest := List.mem_of_find?_eq_some hff
        have hf_le : f.priority ≤ item.priority := hrest_bound_item f hf_mem
        simp [List.takeWhile_cons, hf_le]
    · -- item fails: it is the first failing operation; finish its group
      rw [runOps_stop_true_groupErr rest item.priority m (acc ++ [item]) hrest_bound_item]
      rw [firstErr_cons, hres, mergeErr_some, firstFailing_cons_some item rest m hres]
      have htw : rest.takeWhile (fun y => decide (y.priority = item.priority)) =
          rest.takeWhile (fun y => decide (item.priority ≤ y.priority)) := by
        apply takeWhile_congr_mem
        intro y hy
        have : y.priority ≤ item.priority := hrest_bound_item y hy
        by_cases h' : y.priority = item.priority
        · simp [h']
        · have : ¬ item.priority ≤ y.priority := by omega
          simp [h', this]
      rw [htw]
      simp [List.takeWhile_cons]

/-- The executed operations are always a sublist of the input list (used
for the termination of the reboot loop). -/
theorem runOps_fst_sublist {α : Type} (stop : Bool) (l : List (PriorityOperation α)) :
    ∀ (p : Nat) (g e : Option String) (acc : List (PriorityOperation α)),
    ∃ s, (runOps stop l p g e acc).1 = acc ++ s ∧ s.Sublist l := by
  induction l with
  | nil =>
    intro p g e acc
    exact ⟨[], by simp [runOps], List.Sublist.refl []⟩
  | cons item rest ih =>
    intro p g e acc
    simp only [runOps]
    by_cases hp : item.priority = p
    · simp only [hp, if_true]
      obtain ⟨s, hs, hsub⟩ := ih p (mergeErr g item.result) e (acc ++ [item])
      exact ⟨item :: s, by rw [hs]; simp, List.Sublist.cons₂ item hsub⟩
    · simp only [hp, if_false]
      cases g with
      | none =>
        obtain ⟨s, hs, hsub⟩ := ih item.priority item.result e (acc ++ [item])
        exact ⟨item :: s, by rw [hs]; simp, List.Sublist.cons₂ item hsub⟩
      | some ge =>
        cases stop with
        | true =>
          exact ⟨[], by simp, List.nil_sublist _⟩
        | false =>
          obtain ⟨s, hs, hsub⟩ := ih item.priority item.result (mergeErr e (some ge))
            (acc ++ [item])
          refine ⟨item :: s, ?_, List.Sublist.cons₂ item hsub⟩
          show (runOps false rest item.priority item.result (mergeErr e (some ge))
            (acc ++ [item])).1 = acc ++ item :: s
          rw [hs]
          simp

/-- The executed operations of `doPriorityOperations` form a sub-permutation
of the submitted operations. -/
theorem doPriorityOperations_fst_subperm {α : Type} (ops : List (PriorityOperation α))
    (stop : Bool) : (doPriorityOperations ops stop).1.Subperm ops := by
  unfold doPriorityOperations
  have hperm : (sortOps ops).Perm ops := List.perm_insertionSort opGE ops
  rcases hsorted : sortOps ops with _ | ⟨first, rest⟩
  · simp
  · obtain ⟨s, hs, hsub⟩ := runOps_fst_sublist stop (first :: rest) first.priority none none []
    simp only [hs, List.nil_append]
    exact (hsub.subperm).trans (hsorted ▸ hperm).subperm

/-- Full characterization of `doPriorityOperations` on a sorted input. -/
theorem doPriorityOperations_spec {α : Type} (ops : List (PriorityOperation α)) :
    doPriorityOperations ops false = (sortOps ops, firstErr (sortOps ops)) ∧
    doPriorityOperations ops true =
      (match firstFailing (sortOps ops) with
       | none => sortOps ops
       | some f => (sortOps ops).filter (fun y => decide (f.priority ≤ y.priority)),
       firstErr (sortOps ops)) := by
  have hsorted : List.Sorted opGE (sortOps ops) := List.sorted_insertionSort opGE ops
  unfold doPriorityOperations
  rcases heq : sortOps ops with _ | ⟨first, rest⟩
  · constructor
    · simp [firstErr_nil]
    · simp [firstFailing, firstErr_nil]
  · rw [heq] at hsorted
    have hbound : ∀ y ∈ first :: rest, y.priority ≤ first.priority := by
      intro y hy
      rcases List.mem_cons.mp hy with h | h
      · exact h ▸ Nat.le_refl _
      · exact (List.pairwise_cons.mp hsorted).1 y h
    constructor
    · show runOps false (first :: rest) first.priority none none [] =
        (first :: rest, firstErr (first :: rest))
      rw [runOps_stop_false (first :: rest) first.priority none none []]
      simp [mergeErr_none_left]
    · show runOps true (first :: rest) first.priority none none [] = _
      rw [runOps_stop_true (first :: rest) first.priority [] hsorted hbound]
      rcases hff : firstFailing (first :: rest) with _ | f
      · simp
      · have htwf := sorted_takeWhile_eq_filter (first :: rest) f.priority hsorted
        simp [htwf]

/-! ## Claim C1 and C2 theorems -/

/-- C1: an event submitted in a state outside its allowed source set —
prepare only from Idle, update only from Prepared, apply only from
Updated, revert only from Prepared/Updated/Failed — makes the handler
return the wrong-state error and leaves the FSM state unchanged; in
Failed the only accepted event is revert. -/
theorem claim_c1_wrong_state_rejection (s : UpdateState) (e : UMEvent)
    (h : s ∉ eventSrc e) :
    sendEvent s e =
      (s, some ("error sending event " ++ eventName e ++ " in state: " ++ stateName s)) ∧
    eventSrc .prepare = [.idle] ∧ eventSrc .update = [.prepared] ∧
    eventSrc .apply = [.updated] ∧ eventSrc .revert = [.prepared, .updated, .failed] ∧
    (∀ e' : UMEvent, fsmCan e' .failed = true ↔ e' = .revert) := by
  refine ⟨?_, rfl, rfl, rfl, rfl, ?_⟩
  · simp [sendEvent, fsmCan, h]
  · intro e'
    cases e' <;> simp [fsmCan, eventSrc]

/-- Witness for C1: the apply event in Failed is rejected with the FSM
left in Failed. -/
theorem claim_c1_wrong_state_rejection_witness :
    UpdateState.failed ∉ eventSrc UMEvent.apply ∧
    (sendEvent .failed .apply).1 = UpdateState.failed := by
  have h := claim_c1_wrong_state_rejection .failed .apply (by decide)
  exact ⟨by decide, by rw [h.1]⟩

/-- C2: the scheduler runs operations sorted into groups of equal
priority in descending priority order; with `stopOnError = true` it
executes exactly the operations whose priority is at least that of the
first failing operation (nothing of any lower-priority group) and
returns that operation's error; with `stopOnError = false` it executes
everything and returns the first error seen. -/
theorem claim_c2_priority_scheduler {α : Type} (ops : List (PriorityOperation α)) :
    List.Sorted opGE (sortOps ops) ∧ (sortOps ops).Perm ops ∧
    doPriorityOperations ops false = (sortOps ops, firstErr (sortOps ops)) ∧
    doPriorityOperations ops true =
      (match firstFailing (sortOps ops) with
       | none => sortOps ops
       | some f => (sortOps ops).filter (fun y => decide (f.priority ≤ y.priority)),
       firstErr (sortOps ops)) :=
  ⟨List.sorted_insertionSort opGE ops, List.perm_insertionSort opGE ops,
    (doPriorityOperations_spec ops).1, (doPriorityOperations_spec ops).2⟩

/-! ## The reboot loop (`Handler.componentOperation`, `doOperation`, `doReboot`)

`componentOperation` repeatedly runs the per-component operation closure
over the current component set through the scheduler, collects the
components whose call returned `rebootRequired = true` with no error,
reboots them, and loops over exactly those components.  A component and
the in-flight set are modelled by the observable behaviour of its
closure calls. -/

/-- Observable behaviour of one component inside one transition: the
component id, its `updatePriority` and `rebootPriority` from the module
configuration, the result `(rebootRequired, err)` of its n-th
`operation` closure call (beyond the list the call reports
`(false, nil)`), and the result of its n-th `Reboot` call. -/
structure ModBehavior where
  id : String
  updatePriority : Nat
  rebootPriority : Nat
  opResults : List (Bool × Option String)
  rebootResults : List (Option String)
  deriving DecidableEq, Repr

/-- Result of the n-th `operation` closure call of a component. -/
def opResult (b : ModBehavior) (n : Nat) : Bool × Option String :=
  b.opResults.getD n (false, none)

/-- Result of the n-th `Reboot` call of a component. -/
def rebootResult (b : ModBehavior) (n : Nat) : Option String :=
  b.rebootResults.getD n none

/-- One executed `operation` call, as recorded in the execution log. -/
structure OpCall where
  id : String
  callIdx : Nat
  rebootRequired : Bool
  result : Option String
  deriving DecidableEq, Repr

/-- The `priorityOperation` list built by `doOperation` for one pass:
one entry per in-flight component, at its update priority, whose
closure result is the error of its next call. -/
def roundOps (active : List (ModBehavior × Nat)) :
    List (PriorityOperation (ModBehavior × Nat)) :=
  active.map (fun bn =>
    { priority := bn.1.updatePriority, payload := bn, result := (opResult bn.1 bn.2).2 })

/-- The components whose call the scheduler actually ran in one pass. -/
def executedOf (active : List (ModBehavior × Nat)) (stop : Bool) :
    List (ModBehavior × Nat) :=
  (doPriorityOperations (roundOps active) stop).1.map PriorityOperation.payload

/-- Log entries of one pass. -/
def callsOf (executed : List (ModBehavior × Nat)) : List OpCall :=
  executed.map (fun bn =>
    { id := bn.1.id, callIdx := bn.2,
      rebootRequired := (opResult bn.1 bn.2).1, result := (opResult bn.1 bn.2).2 })

/-- `rebootStatuses`: the executed components whose call succeeded and
requested a reboot. -/
def survivorsOf (executed : List (ModBehavior × Nat)) : List (ModBehavior × Nat) :=
  executed.filter (fun bn => (opResult bn.1 bn.2).2.isNone && (opResult bn.1 bn.2).1)

/-- The `priorityOperation` list built by `doReboot`: reboot priority,
result of the pending `Reboot` call. -/
def rebootOps (surv : List (ModBehavior × Nat)) :
    List (PriorityOperation (ModBehavior × Nat)) :=
  surv.map (fun bn =>
    { priority := bn.1.rebootPriority, payload := bn, result := rebootResult bn.1 bn.2 })

/-- Advance a component to its next call. -/
def incIdx (bn : ModBehavior × Nat) : ModBehavior × Nat := (bn.1, bn.2 + 1)

/-- Termination measure: pending call budget of the in-flight set. -/
def loopMeasure (active : List (ModBehavior × Nat)) : Nat :=
  (active.map (fun bn => bn.1.opResults.length - bn.2)).sum

theorem subperm_sum_le (l l' : List Nat) (h : l.Subperm l') : l.sum ≤ l'.sum := by
  obtain ⟨u, hu⟩ := Multiset.le_iff_exists_add.mp (Multiset.coe_le.mpr h)
  have : (l' : Multiset Nat).sum = (l : Multiset Nat).sum + u.sum := by
    rw [hu, Multiset.sum_add]
  simp only [Multiset.sum_coe] at this
  omega

theorem subperm_map {α β : Type} (f : α → β) {l l' : List α} (h : l.Subperm l') :
    (l.map f).Subperm (l'.map f) := by
  obtain ⟨m, hperm, hsub⟩ := h
  exact ⟨m.map f, hperm.map f, hsub.map f⟩

theorem roundOps_map_payload (active : List (ModBehavior × Nat)) :
    (roundOps active).map PriorityOperation.payload = active := by
  induction active with
  | nil => rfl
  | cons x rest ih =>
    simp only [roundOps, List.map_cons] at ih ⊢
    rw [ih]

theorem executedOf_subperm (active : List (ModBehavior × Nat)) (stop : Bool) :
    (executedOf active stop).Subperm active := by
  have h := doPriorityOperations_fst_subperm (roundOps active) stop
  have h2 := subperm_map PriorityOperation.payload h
  rwa [roundOps_map_payload] at h2

theorem survivorsOf_sublist (executed : List (ModBehavior × Nat)) :
    (survivorsOf executed).Sublist executed :=
  List.filter_sublist executed

theorem survivors_idx_lt (executed : List (ModBehavior × Nat)) (bn : ModBehavior × Nat)
    (h : bn ∈ survivorsOf executed) : bn.2 < bn.1.opResults.length := by
  have hp := List.of_mem_filter h
  have htrue : (opResult bn.1 bn.2).1 = true := by
    have hp' : (opResult bn.1 bn.2).2.isNone = true ∧ (opResult bn.1 bn.2).1 = true := by
      simpa using hp
    exact hp'.2
  by_contra hge
  have : opResult bn.1 bn.2 = (false, none) := by
    unfold opResult
    exact List.getD_eq_default _ _ (Nat.le_of_not_lt hge)
  rw [this] at htrue
  exact Bool.false_ne_true htrue

theorem loopMeasure_map_inc (l : List (ModBehavior × Nat))
    (h : ∀ bn ∈ l, bn.2 < bn.1.opResults.length) :
    loopMeasure (l.map incIdx) + l.length = loopMeasure l := by
  induction l with
  | nil => simp [loopMeasure]
  | cons x rest ih =>
    have hx := h x (List.mem_cons_self x rest)
    have hrest := ih (fun bn hbn => h bn (List.mem_cons_of_mem _ hbn))
    simp only [loopMeasure, List.map_cons, List.sum_cons, List.length_cons, incIdx] at *
    omega

theorem loopMeasure_subperm (l l' : List (ModBehavior × Nat)) (h : l.Subperm l') :
    loopMeasure l ≤ loopMeasure l' :=
  subperm_sum_le _ _ (subperm_map _ h)

/-- The body of `Handler.componentOperation`: run one scheduler pass
over the in-flight set, return on error (with `stopOnError`) or when no
component requested a reboot, otherwise reboot the requesting
components and loop over exactly those components, accumulating the
first error seen.  Returns the log of all executed `operation` calls
and the returned error. -/
def componentOperationAux (stop : Bool) (active : List (ModBehavior × Nat))
    (err : Option String) : List OpCall × Option String :=
  if active = [] then ([], err)
  else
    let executed := executedOf active stop
    let opErr := (doPriorityOperations (roundOps active) stop).2
    let log := callsOf executed
    if stop && opErr.isSome then (log, opErr)
    else
      let err1 := mergeErr err opErr
      let surv := survivorsOf executed
      if hsurv : surv = [] then (log, err1)
      else
        let rebootErr := (doPriorityOperations (rebootOps surv) stop).2
        if stop && rebootErr.isSome then (log, rebootErr)
        else
          let next := componentOperationAux stop (surv.map incIdx) (mergeErr err1 rebootErr)
          (log ++ next.1, next.2)
termination_by loopMeasure active
decreasing_by
  have h1 : (survivorsOf (executedOf active stop)).Subperm active :=
    (survivorsOf_sublist _).subperm.trans (executedOf_subperm active stop)
  have h2 : ∀ bn ∈ survivorsOf (executedOf active stop), bn.2 < bn.1.opResults.length :=
    fun bn hbn => survivors_idx_lt _ bn hbn
  have h3 := loopMeasure_map_inc _ h2
  have h4 := loopMeasure_subperm _ _ h1
  have h5 : 0 < (survivorsOf (executedOf active stop)).length :=
    List.length_pos.mpr hsurv
  omega

/-- `Handler.componentOperation`: all components start at their first
call, with no accumulated error. -/
def componentOperation (stop : Bool) (comps : List ModBehavior) :
    List OpCall × Option String :=
  componentOperationAux stop (comps.map (fun b => (b, 0))) none

/-! ### Error-free runs of the reboot loop -/

/-- A component whose operation and reboot calls never return an error. -/
def ErrFree (b : ModBehavior) : Prop :=
  (∀ r ∈ b.opResults, r.2 = none) ∧ (∀ r ∈ b.rebootResults, r = none)

theorem opResult_true_lt (b : ModBehavior) (n : Nat) (h : (opResult b n).1 = true) :
    n < b.opResults.length := by
  by_contra hge
  have hd : opResult b n = (false, none) := by
    unfold opResult
    exact List.getD_eq_default _ _ (Nat.le_of_not_lt hge)
  rw [hd] at h
  exact Bool.false_ne_true h

theorem opResult_snd_none (b : ModBehavior) (h : ErrFree b) (n : Nat) :
    (opResult b n).2 = none := by
  unfold opResult
  by_cases hn : n < b.opResults.length
  · rw [List.getD_eq_getElem _ _ hn]
    exact h.1 _ (List.getElem_mem hn)
  · rw [List.getD_eq_default _ _ (Nat.le_of_not_lt hn)]

theorem rebootResult_none (b : ModBehavior) (h : ErrFree b) (n : Nat) :
    rebootResult b n = none := by
  unfold rebootResult
  by_cases hn : n < b.rebootResults.length
  · rw [List.getD_eq_getElem _ _ hn]
    exact h.2 _ (List.getElem_mem hn)
  · rw [List.getD_eq_default _ _ (Nat.le_of_not_lt hn)]

/-- A scheduler pass over operations that all succeed runs everything
and reports no error. -/
theorem doPriorityOperations_noerr {α : Type} (ops : List (PriorityOperation α)) (stop : Bool)
    (h : ∀ op ∈ ops, op.result = none) :
    (doPriorityOperations ops stop).1 = sortOps ops ∧
    (doPriorityOperations ops stop).2 = none := by
  have hmem : ∀ op ∈ sortOps ops, op.result = none := by
    intro op hop
    exact h op ((List.perm_insertionSort opGE ops).subset hop)
  have hN : firstFailing (sortOps ops) = none := by
    apply List.find?_eq_none.mpr
    intro x hx
    rw [hmem x hx]
    simp
  have hE : firstErr (sortOps ops) = none := by
    unfold firstErr
    rw [hN]
    rfl
  obtain ⟨hfalse, htrue⟩ := doPriorityOperations_spec ops
  cases stop
  · rw [hfalse, hE]
    exact ⟨rfl, rfl⟩
  · rw [htrue, hN, hE]
    exact ⟨rfl, rfl⟩

/-- Number of consecutive `rebootRequired = true` results starting at
call `n` (the number of extra loop iterations the component enters). -/
def truesFrom (b : ModBehavior) (n : Nat) : Nat :=
  if (opResult b n).1 = true then truesFrom b (n + 1) + 1 else 0
termination_by b.opResults.length - n
decreasing_by
  have := opResult_true_lt b n (by assumption)
  omega

theorem truesFrom_of_true (b : ModBehavior) (n : Nat) (h : (opResult b n).1 = true) :
    truesFrom b n = truesFrom b (n + 1) + 1 := by
  rw [truesFrom, if_pos h]

theorem truesFrom_of_false (b : ModBehavior) (n : Nat) (h : (opResult b n).1 = false) :
    truesFrom b n = 0 := by
  rw [truesFrom, if_neg (by simp [h])]

theorem roundOps_result_none (active : List (ModBehavior × Nat))
    (hEF : ∀ bn ∈ active, ErrFree bn.1) :
    ∀ op ∈ roundOps active, op.result = none := by
  intro op hop
  obtain ⟨bn, hbn, rfl⟩ := List.mem_map.mp hop
  exact opResult_snd_none bn.1 (hEF bn hbn) bn.2

/-- In an error-free pass the scheduler runs every in-flight component:
the executed set is a permutation of the active set. -/
theorem executedOf_perm_noerr (active : List (ModBehavior × Nat)) (stop : Bool)
    (hEF : ∀ bn ∈ active, ErrFree bn.1) :
    (executedOf active stop).Perm active := by
  unfold executedOf
  rw [(doPriorityOperations_noerr (roundOps active) stop (roundOps_result_none active hEF)).1]
  have h1 : (sortOps (roundOps active)).Perm (roundOps active) :=
    List.perm_insertionSort opGE (roundOps active)
  have h2 := h1.map PriorityOperation.payload
  rwa [roundOps_map_payload] at h2

/-- One unrolling of the reboot loop when no call returns an error: the
log is this pass's calls followed by the recursion on the rebooted
components, and the error accumulator passes through unchanged. -/
theorem componentOperationAux_noerr_step (stop : Bool) (active : List (ModBehavior × Nat))
    (err : Option String) (hEF : ∀ bn ∈ active, ErrFree bn.1) (hne : active ≠ []) :
    componentOperationAux stop active err =
      (callsOf (executedOf active stop) ++
         (componentOperationAux stop
           ((survivorsOf (executedOf active stop)).map incIdx) err).1,
       (componentOperationAux stop
           ((survivorsOf (executedOf active stop)).map incIdx) err).2) := by
  have hopErr : (doPriorityOperations (roundOps active) stop).2 = none :=
    (doPriorityOperations_noerr (roundOps active) stop (roundOps_result_none active hEF)).2
  have hsubset : ∀ bn ∈ survivorsOf (executedOf active stop), bn ∈ active := by
    intro bn hbn
    exact (executedOf_perm_noerr active stop hEF).subset
      ((survivorsOf_sublist _).subset hbn)
  have hrebErr : (doPriorityOperations (rebootOps (survivorsOf (executedOf active stop)))
      stop).2 = none := by
    apply (doPriorityOperations_noerr _ stop ?_).2
    intro op hop
    obtain ⟨bn, hbn, rfl⟩ := List.mem_map.mp hop
    exact rebootResult_none bn.1 (hEF bn (hsubset bn hbn)) bn.2
  rw [componentOperationAux]
  rw [if_neg hne]
  simp only [hopErr, Option.isSome_none, Bool.and_false, Bool.false_eq_true, if_false,
    mergeErr_none_right]
  by_cases hsurv : survivorsOf (executedOf active stop) = []
  · rw [dif_pos hsurv, hsurv]
    rw [show componentOperationAux stop (([] : List (ModBehavior × Nat)).map incIdx) err =
      ([], err) by rw [List.map_nil, componentOperationAux]; simp]
    simp
  · rw [dif_neg hsurv]
    simp only [hrebErr, Option.isSome_none, Bool.and_false, Bool.false_eq_true, if_false,
      mergeErr_none_right]

/-! ### Counting operation calls per component -/

/-- Number of `operation` calls recorded for a component id. -/
def countCallsOf (log : List OpCall) (id : String) : Nat :=
  log.countP (fun c => c.id == id)

/-- Number of recorded calls of a component id that returned
`rebootRequired = true`. -/
def countTrueCallsOf (log : List OpCall) (id : String) : Nat :=
  log.countP (fun c => c.id == id && c.rebootRequired)

/-- The component ids of an in-flight set. -/
def idsOf (active : List (ModBehavior × Nat)) : List String :=
  active.map (fun bn => bn.1.id)

theorem countCallsOf_append (a b : List OpCall) (id : String) :
    countCallsOf (a ++ b) id = countCallsOf a id + countCallsOf b id :=
  List.countP_append _ _ _

theorem countTrueCallsOf_append (a b : List OpCall) (id : String) :
    countTrueCallsOf (a ++ b) id = countTrueCallsOf a id + countTrueCallsOf b id :=
  List.countP_append _ _ _

theorem countCallsOf_callsOf (l : List (ModBehavior × Nat)) (id : String) :
    countCallsOf (callsOf l) id = l.countP (fun bn => bn.1.id == id) := by
  unfold countCallsOf callsOf
  rw [List.countP_map]
  rfl

theorem countTrueCallsOf_callsOf (l : List (ModBehavior × Nat)) (id : String) :
    countTrueCallsOf (callsOf l) id =
      l.countP (fun bn => bn.1.id == id && (opResult bn.1 bn.2).1) := by
  unfold countTrueCallsOf callsOf
  rw [List.countP_map]
  rfl

theorem countP_id_zero (l : List (ModBehavior × Nat)) (q : ModBehavior × Nat → Bool)
    (id : String) (h : id ∉ idsOf l) :
    l.countP (fun x => (x.1.id == id) && q x) = 0 := by
  induction l with
  | nil => rfl
  | cons x rest ih =>
    have hx : ¬ x.1.id = id := by
      intro hcontra
      exact h (by simp [idsOf, hcontra])
    have hrest : id ∉ idsOf rest := by
      intro hcontra
      exact h (by simp [idsOf] at hcontra ⊢; exact Or.inr hcontra)
    rw [List.countP_cons]
    have : ((x.1.id == id) && q x) = false := by
      simp [hx]
    rw [this, ih hrest]
    simp

theorem countP_by_id (l : List (ModBehavior × Nat)) (bn : ModBehavior × Nat)
    (hmem : bn ∈ l) (hN : (idsOf l).Nodup) (q : ModBehavior × Nat → Bool) :
    l.countP (fun x => (x.1.id == bn.1.id) && q x) = if q bn then 1 else 0 := by
  induction l with
  | nil => cases hmem
  | cons x rest ih =>
    have hNrest : (idsOf rest).Nodup := (List.nodup_cons.mp hN).2
    have hxid : x.1.id ∉ idsOf rest := (List.nodup_cons.mp hN).1
    rw [List.countP_cons]
    by_cases hid : x.1.id = bn.1.id
    · -- the head carries the id; by nodup `bn` must be the head
      have hbnx : bn = x := by
        rcases List.mem_cons.mp hmem with h | h
        · exact h
        · exfalso
          apply hxid
          rw [hid]
          exact List.mem_map.mpr ⟨bn, h, rfl⟩
      subst hbnx
      have hzero : rest.countP (fun x => (x.1.id == bn.1.id) && q x) = 0 :=
        countP_id_zero rest q bn.1.id hxid
      rw [hzero]
      by_cases hq : q bn
      · simp [hq]
      · simp [hq]
    · have hbn_rest : bn ∈ rest := by
        rcases List.mem_cons.mp hmem with h | h
        · exact absurd (congrArg (fun z => z.1.id) h.symm) hid
        · exact h
      have hhead : ((x.1.id == bn.1.id) && q x) = false := by
        simp [hid]
      rw [hhead, ih hbn_rest hNrest]
      simp

/-- Error-free runs of the reboot loop: every in-flight component is
called once per pass it participates in; it participates in exactly one
pass per consecutive `rebootRequired = true` result plus a final one,
and components outside the in-flight set are never called. -/
theorem componentOperationAux_counts (stop : Bool) :
    ∀ (N : Nat) (active : List (ModBehavior × Nat)) (err : Option String),
    loopMeasure active < N →
    (∀ bn ∈ active, ErrFree bn.1) →
    (idsOf active).Nodup →
    (∀ bn ∈ active,
      countCallsOf (componentOperationAux stop active err).1 bn.1.id =
        truesFrom bn.1 bn.2 + 1 ∧
      countTrueCallsOf (componentOperationAux stop active err).1 bn.1.id =
        truesFrom bn.1 bn.2) ∧
    (∀ id, id ∉ idsOf active →
      countCallsOf (componentOperationAux stop active err).1 id = 0 ∧
      countTrueCallsOf (componentOperationAux stop active err).1 id = 0) := by
  intro N
  induction N with
  | zero => intro active err hm; omega
  | succ N ih =>
    intro active err hm hEF hND
    by_cases hne : active = []
    · subst hne
      rw [show componentOperationAux stop [] err = ([], err) by
        rw [componentOperationAux]; simp]
      constructor
      · intro bn hbn; cases hbn
      · intro id _; exact ⟨rfl, rfl⟩
    · rw [componentOperationAux_noerr_step stop active err hEF hne]
      have hperm : (executedOf active stop).Perm active := executedOf_perm_noerr active stop hEF
      have hpermIds : ((executedOf active stop).map (fun bn => bn.1.id)).Perm (idsOf active) :=
        hperm.map _
      -- counts contributed by this pass
      have hroundCount : ∀ bn ∈ active,
          countCallsOf (callsOf (executedOf active stop)) bn.1.id = 1 ∧
          countTrueCallsOf (callsOf (executedOf active stop)) bn.1.id =
            (if (opResult bn.1 bn.2).1 then 1 else 0) := by
        intro bn hbn
        constructor
        · rw [countCallsOf_callsOf]
          rw [hperm.countP_eq]
          have h1 := countP_by_id active bn hbn hND (fun _ => true)
          simp only [Bool.and_true] at h1
          rw [h1]
          simp
        · rw [countTrueCallsOf_callsOf]
          rw [hperm.countP_eq]
          exact countP_by_id active bn hbn hND (fun x => (opResult x.1 x.2).1)
      have hroundZero : ∀ id, id ∉ idsOf active →
          countCallsOf (callsOf (executedOf active stop)) id = 0 ∧
          countTrueCallsOf (callsOf (executedOf active stop)) id = 0 := by
        intro id hid
        have hidE : id ∉ idsOf (executedOf active stop) := by
          intro hcontra
          exact hid (hpermIds.subset hcontra)
        constructor
        · rw [countCallsOf_callsOf, hperm.countP_eq]
          have := countP_id_zero active (fun _ => true) id hid
          simpa using this
        · rw [countTrueCallsOf_callsOf, hperm.countP_eq]
          exact countP_id_zero active (fun x => (opResult x.1 x.2).1) id hid
      -- the recursion's in-flight set
      have hsurv_mem_active : ∀ bn ∈ survivorsOf (executedOf active stop), bn ∈ active :=
        fun bn hbn => hperm.subset ((survivorsOf_sublist _).subset hbn)
      have hEF' : ∀ bn ∈ (survivorsOf (executedOf active stop)).map incIdx, ErrFree bn.1 := by
        intro bn hbn
        obtain ⟨x, hx, rfl⟩ := List.mem_map.mp hbn
        exact hEF x (hsurv_mem_active x hx)
      have hids_eq : idsOf ((survivorsOf (executedOf active stop)).map incIdx) =
          idsOf (survivorsOf (executedOf active stop)) := by
        unfold idsOf incIdx
        rw [List.map_map]
        rfl
      have hND' : (idsOf ((survivorsOf (executedOf active stop)).map incIdx)).Nodup := by
        rw [hids_eq]
        have h1 : (idsOf (executedOf active stop)).Nodup := hpermIds.nodup_iff.mpr hND
        exact ((survivorsOf_sublist _).map _).nodup h1
      have hsurv_ids_sub : ∀ id, id ∈ idsOf (survivorsOf (executedOf active stop)) →
          id ∈ idsOf active := by
        intro id hid
        obtain ⟨x, hx, rfl⟩ := List.mem_map.mp hid
        exact List.mem_map.mpr ⟨x, hsurv_mem_active x hx, rfl⟩
      by_cases hS : survivorsOf (executedOf active stop) = []
      · -- no component requested a reboot: the loop ends after this pass
        rw [hS]
        rw [show componentOperationAux stop (([] : List (ModBehavior × Nat)).map incIdx) err =
          ([], err) by rw [List.map_nil, componentOperationAux]; simp]
        constructor
        · intro bn hbn
          have hfalse : (opResult bn.1 bn.2).1 = false := by
            by_contra htr
            have htr' : (opResult bn.1 bn.2).1 = true := by
              cases h : (opResult bn.1 bn.2).1
              · exact absurd h htr
              · rfl
            have hmemE : bn ∈ executedOf active stop := hperm.mem_iff.mpr hbn
            have : bn ∈ survivorsOf (executedOf active stop) := by
              apply List.mem_filter.mpr
              refine ⟨hmemE, ?_⟩
              rw [opResult_snd_none bn.1 (hEF bn hbn) bn.2, htr']
              rfl
            rw [hS] at this
            cases this
          obtain ⟨hc, ht⟩ := hroundCount bn hbn
          rw [truesFrom_of_false bn.1 bn.2 hfalse]
          constructor
          · simpa using hc
          · rw [hfalse] at ht
            simpa using ht
        · intro id hid
          obtain ⟨hc, ht⟩ := hroundZero id hid
          constructor
          · simpa using hc
          · simpa using ht
      · -- some components continue after a reboot
        have hdec : loopMeasure ((survivorsOf (executedOf active stop)).map incIdx) <
            loopMeasure active := by
          have h1 : (survivorsOf (executedOf active stop)).Subperm active :=
            (survivorsOf_sublist _).subperm.trans hperm.subperm
          have h2 : ∀ bn ∈ survivorsOf (executedOf active stop),
              bn.2 < bn.1.opResults.length :=
            fun bn hbn => survivors_idx_lt _ bn hbn
          have h3 := loopMeasure_map_inc _ h2
          have h4 := loopMeasure_subperm _ _ h1
          have h5 : 0 < (survivorsOf (executedOf active stop)).length :=
            List.length_pos.mpr hS
          omega
        obtain ⟨ihMem, ihZero⟩ := ih ((survivorsOf (executedOf active stop)).map incIdx) err
          (by omega) hEF' hND'
        constructor
        · intro bn hbn
          obtain ⟨hc, ht⟩ := hroundCount bn hbn
          rw [countCallsOf_append, countTrueCallsOf_append, hc, ht]
          by_cases htr : (opResult bn.1 bn.2).1 = true
          · -- bn reboots and is called again in the recursion
            have hmemE : bn ∈ executedOf active stop := hperm.mem_iff.mpr hbn
            have hmemS : bn ∈ survivorsOf (executedOf active stop) := by
              apply List.mem_filter.mpr
              refine ⟨hmemE, ?_⟩
              rw [opResult_snd_none bn.1 (hEF bn hbn) bn.2, htr]
              rfl
            have hmemA' : (bn.1, bn.2 + 1) ∈
                (survivorsOf (executedOf active stop)).map incIdx :=
              List.mem_map.mpr ⟨bn, hmemS, rfl⟩
            obtain ⟨hc', ht'⟩ := ihMem (bn.1, bn.2 + 1) hmemA'
            rw [truesFrom_of_true bn.1 bn.2 htr]
            have hc'' : countCallsOf (componentOperationAux stop
                ((survivorsOf (executedOf active stop)).map incIdx) err).1 bn.1.id =
                truesFrom bn.1 (bn.2 + 1) + 1 := hc'
            have ht'' : countTrueCallsOf (componentOperationAux stop
                ((survivorsOf (executedOf active stop)).map incIdx) err).1 bn.1.id =
                truesFrom bn.1 (bn.2 + 1) := ht'
            rw [hc'', ht'', if_pos htr]
            constructor
            · omega
            · omega
          · -- bn is done: its id does not appear in the recursion
            have hfalse : (opResult bn.1 bn.2).1 = false := by
              cases h : (opResult bn.1 bn.2).1
              · rfl
              · exact absurd h htr
            have hnot : bn.1.id ∉ idsOf ((survivorsOf (executedOf active stop)).map incIdx) := by
              rw [hids_eq]
              intro hcontra
              obtain ⟨x, hx, hxid⟩ := List.mem_map.mp hcontra
              have hxA : x ∈ active := hsurv_mem_active x hx
              have hxbn : x = bn :=
                List.inj_on_of_nodup_map hND hxA hbn hxid
              subst hxbn
              have := List.of_mem_filter hx
              rw [opResult_snd_none x.1 (hEF x hxA) x.2, hfalse] at this
              simp at this
            obtain ⟨hc', ht'⟩ := ihZero bn.1.id hnot
            rw [hc', ht', truesFrom_of_false bn.1 bn.2 hfalse]
            rw [hfalse]
            constructor
            · simp
            · simp
        · intro id hid
          obtain ⟨hc, ht⟩ := hroundZero id hid
          have hnot : id ∉ idsOf ((survivorsOf (executedOf active stop)).map incIdx) := by
            rw [hids_eq]
            intro hcontra
            exact hid (hsurv_ids_sub id hcontra)
          obtain ⟨hc', ht'⟩ := ihZero id hnot
          rw [countCallsOf_append, countTrueCallsOf_append, hc, ht, hc', ht']
          exact ⟨rfl, rfl⟩

/-! ## Component statuses and persistent storage -/

/-- Component status values, from the `umclient.StatusInstalled` /
`StatusInstalling` / `StatusUpdated` / `StatusError` constants. -/
inductive CompStatus where
  | installed
  | installing
  | updated
  | error
  deriving DecidableEq, Repr

/-- `umclient.ComponentStatusInfo`. -/
structure ComponentStatusInfo where
  id : String
  vendorVersion : String
  aosVersion : Nat
  status : CompStatus
  error : String
  deriving DecidableEq, Repr

/-- `umclient.ComponentUpdateInfo`: one requested item of a prepare. -/
structure ComponentUpdateInfo where
  id : String
  vendorVersion : String
  aosVersion : Nat
  url : String
  sha256 : String
  sha512 : String
  size : Nat
  annotations : String
  deriving DecidableEq, Repr

/-- The version part of the `StateStorage` interface: per-component
aos and vendor versions.  Writes prepend, reads take the most recent
entry; a read of an id never written is the `GetAosVersion` /
`GetVendorVersion` error path. -/
structure Storage where
  aosVersions : List (String × Nat)
  vendorVersions : List (String × String)
  deriving DecidableEq, Repr

/-- `StateStorage.GetAosVersion`; `none` is the error return. -/
def getAosVersion (s : Storage) (id : String) : Option Nat :=
  (s.aosVersions.find? (fun kv => kv.1 == id)).map Prod.snd

/-- `StateStorage.SetAosVersion` (modelled as always succeeding). -/
def setAosVersion (s : Storage) (id : String) (v : Nat) : Storage :=
  { s with aosVersions := (id, v) :: s.aosVersions }

/-- `StateStorage.GetVendorVersion`; `none` is the error return. -/
def getVendorVersion (s : Storage) (id : String) : Option String :=
  (s.vendorVersions.find? (fun kv => kv.1 == id)).map Prod.snd

/-- `StateStorage.SetVendorVersion` (modelled as always succeeding). -/
def setVendorVersion (s : Storage) (id : String) (v : String) : Storage :=
  { s with vendorVersions := (id, v) :: s.vendorVersions }

/-! ## `Handler.prepareComponent` -/

/-- Module model for the prepare transition: `GetVendorVersion` result
and the result of `Prepare(path, vendorVersion, annotations)`, plus the
configured update priority. -/
structure PrepareModuleModel where
  id : String
  updatePriority : Nat
  vendorVersion : Except String String
  prepareResult : String → String → String → Option String

/-- Environment of `prepareComponent`: `downloadImage` (already closed
over the handler's download dir) and `image.CheckFileInfo` with the
item's declared size and hashes. -/
structure PrepareEnv where
  download : String → Except String String
  checkFile : String → ComponentUpdateInfo → Option String

/-- Observable outcome of one `prepareComponent` call: the storage
after its writes, whether the image fetch/verify phase was entered,
whether `module.Prepare` was invoked, and the returned error. -/
structure PrepareTrace where
  storage : Storage
  downloadAttempted : Bool
  prepareCalled : Bool
  result : Option String

/-- The fetch/verify/Prepare tail of `prepareComponent`. -/
def prepareDownload (env : PrepareEnv) (storage : Storage) (m : PrepareModuleModel)
    (updateInfo : ComponentUpdateInfo) : PrepareTrace :=
  match env.download updateInfo.url with
  | .error e =>
    { storage := storage, downloadAttempted := true, prepareCalled := false, result := some e }
  | .ok filePath =>
    match env.checkFile filePath updateInfo with
    | some e =>
      { storage := storage, downloadAttempted := true, prepareCalled := false, result := some e }
    | none =>
      match m.prepareResult filePath updateInfo.vendorVersion updateInfo.annotations with
      | some e =>
        { storage := storage, downloadAttempted := true, prepareCalled := true, result := some e }
      | none =>
        { storage := storage, downloadAttempted := true, prepareCalled := true, result := none }

/-- The aos-version checks of `prepareComponent` (entered after the
vendor-version precheck): skipped entirely when the requested
`AosVersion` is `0` or when `GetAosVersion` fails. -/
def prepareAosCheck (env : PrepareEnv) (storage : Storage) (m : PrepareModuleModel)
    (updateInfo : ComponentUpdateInfo) : PrepareTrace :=
  if updateInfo.aosVersion ≠ 0 then
    match getAosVersion storage updateInfo.id with
    | some aosVersion =>
      if aosVersion = updateInfo.aosVersion then
        { storage := storage, downloadAttempted := false, prepareCalled := false,
          result := some ("Component already has required Aos version: " ++
            toString updateInfo.aosVersion) }
      else if updateInfo.aosVersion < aosVersion then
        { storage := storage, downloadAttempted := false, prepareCalled := false,
          result := some "wrong Aos version" }
      else prepareDownload env storage m updateInfo
    | none => prepareDownload env storage m updateInfo
  else prepareDownload env storage m updateInfo

/-- `Handler.prepareComponent`: persist the component's current vendor
version (`handler.componentStatuses[id].VendorVersion`, passed as
`currentVendor`), run the vendor-version precheck against the module's
reported version, run the aos-version checks, then fetch, verify and
`Prepare`. -/
def prepareComponent (env : PrepareEnv) (storage : Storage) (currentVendor : String)
    (m : PrepareModuleModel) (updateInfo : ComponentUpdateInfo) : PrepareTrace :=
  let storage1 := setVendorVersion storage updateInfo.id currentVendor
  match m.vendorVersion with
  | .ok vendorVersion =>
    if updateInfo.vendorVersion ≠ "" ∧ vendorVersion = updateInfo.vendorVersion then
      { storage := storage1, downloadAttempted := false, prepareCalled := false,
        result := some ("Component already has required vendor version: " ++ vendorVersion) }
    else prepareAosCheck env storage1 m updateInfo
  | .error _ => prepareAosCheck env storage1 m updateInfo

/-! ## `Handler.onPrepareState` -/

/-- The status `onPrepareState` installs for each requested item. -/
def prepareStatusOf (info : ComponentUpdateInfo) : ComponentStatusInfo :=
  { id := info.id, vendorVersion := info.vendorVersion, aosVersion := info.aosVersion,
    status := .installing, error := "" }

/-- Result of a transition callback: the FSM state it settles in, the
global error, `state.ComponentStatuses`, the storage, and which
components had `Prepare` invoked / the fetch-verify phase entered. -/
structure PrepareTransitionResult where
  fsmState : UpdateState
  error : String
  componentStatuses : List (String × ComponentStatusInfo)
  storage : Storage
  prepared : List String
  downloaded : List String

/-- `Handler.onPrepareState`: reset the error and the in-flight status
set; an empty request list fails at once; a component without a module
aborts `doOperation` before anything runs; otherwise one scheduler pass
(`stopOnError = true`; the prepare operation never requests a reboot,
so the reboot loop makes exactly one pass) runs `prepareComponent` per
item.  Each component's effects are computed against the entry storage:
a prepare only writes its own component's vendor-version key and only
reads its own component's keys, so the concurrent executions of a pass
commute.  On error the FSM is moved to Failed. -/
def onPrepareState (env : PrepareEnv) (storage : Storage) (currentVendors : String → String)
    (modules : List PrepareModuleModel) (infos : List ComponentUpdateInfo) :
    PrepareTransitionResult :=
  let statuses := infos.map (fun info => (info.id, prepareStatusOf info))
  if infos = [] then
    { fsmState := .failed, error := "Prepare componenet list is empty",
      componentStatuses := [], storage := storage, prepared := [], downloaded := [] }
  else
    match infos.find? (fun info => (modules.find? (fun m => m.id == info.id)).isNone) with
    | some missing =>
      { fsmState := .failed, error := "component " ++ missing.id ++ " not found",
        componentStatuses := statuses.map (fun kv =>
          if kv.1 == missing.id then
            (kv.1,
             { kv.2 with
               status := CompStatus.error
               error := "component " ++ missing.id ++ " not found" })
          else kv),
        storage := storage, prepared := [], downloaded := [] }
    | none =>
      let ops : List (PriorityOperation (String × PrepareTrace)) := infos.filterMap (fun info =>
        (modules.find? (fun m => m.id == info.id)).map (fun m =>
          { priority := m.updatePriority,
            payload := (info.id, prepareComponent env storage (currentVendors info.id) m info),
            result := (prepareComponent env storage (currentVendors info.id) m info).result }))
      let run := doPriorityOperations ops true
      let executed := run.1
      let storageQ := executed.foldl
        (fun z op => setVendorVersion z op.payload.1 (currentVendors op.payload.1)) storage
      let statusesQ := statuses.map (fun kv =>
        match executed.find? (fun op => op.payload.1 == kv.1 && op.result.isSome) with
        | some op => (kv.1, { kv.2 with status := .error, error := op.result.getD "" })
        | none => kv)
      let preparedQ := (executed.filter (fun op => op.payload.2.prepareCalled)).map
        (fun op => op.payload.1)
      let downloadedQ := (executed.filter (fun op => op.payload.2.downloadAttempted)).map
        (fun op => op.payload.1)
      match run.2 with
      | some e =>
        { fsmState := .failed, error := e, componentStatuses := statusesQ,
          storage := storageQ, prepared := preparedQ, downloaded := downloadedQ }
      | none =>
        { fsmState := .prepared, error := "", componentStatuses := statusesQ,
          storage := storageQ, prepared := preparedQ, downloaded := downloadedQ }

/-- C10: a prepare event with an empty component list moves the FSM to
Failed with the exact error string of the source (including its typo),
runs no module operation, fetches no image and leaves storage
untouched. -/
theorem claim_c10_empty_prepare (env : PrepareEnv) (storage : Storage)
    (currentVendors : String → String) (modules : List PrepareModuleModel) :
    onPrepareState env storage currentVendors modules [] =
      { fsmState := .failed, error := "Prepare componenet list is empty",
        componentStatuses := [], storage := storage, prepared := [], downloaded := [] } :=
  rfl

/-! ## Claims C5 and C6: the per-item prepare pipeline -/

theorem prepareDownload_storage (env : PrepareEnv) (s : Storage) (m : PrepareModuleModel)
    (info : ComponentUpdateInfo) : (prepareDownload env s m info).storage = s := by
  unfold prepareDownload
  split
  · rfl
  · split
    · rfl
    · split <;> rfl

theorem prepareAosCheck_storage (env : PrepareEnv) (s : Storage) (m : PrepareModuleModel)
    (info : ComponentUpdateInfo) : (prepareAosCheck env s m info).storage = s := by
  unfold prepareAosCheck
  split
  · split
    · split
      · rfl
      · split
        · rfl
        · exact prepareDownload_storage env s m info
    · exact prepareDownload_storage env s m info
  · exact prepareDownload_storage env s m info

/-- The only storage write of `prepareComponent` is the initial
`SetVendorVersion` of the component's current vendor version. -/
theorem prepareComponent_storage (env : PrepareEnv) (s : Storage) (currentVendor : String)
    (m : PrepareModuleModel) (info : ComponentUpdateInfo) :
    (prepareComponent env s currentVendor m info).storage =
      setVendorVersion s info.id currentVendor := by
  unfold prepareComponent
  simp only []
  split
  · split
    · rfl
    · exact prepareAosCheck_storage env _ m info
  · exact prepareAosCheck_storage env _ m info

theorem getVendorVersion_setVendorVersion (s : Storage) (id : String) (v : String) :
    getVendorVersion (setVendorVersion s id v) id = some v := by
  simp [getVendorVersion, setVendorVersion, List.find?]

theorem getAosVersion_setVendorVersion (s : Storage) (id id' : String) (v : String) :
    getAosVersion (setVendorVersion s id v) id' = getAosVersion s id' := rfl

/-- C5 as stated is false: `prepareComponent` persists the component's
*current* vendor version, not the declared one of the request item.
Concrete run: current version "1.0", declared version "2.0", the
prepare succeeds, and vendor-version storage holds "1.0". -/
theorem claim_c5_counterexample :
    let info : ComponentUpdateInfo :=
      { id := "c1", vendorVersion := "2.0", aosVersion := 1, url := "file:///image",
        sha256 := "", sha512 := "", size := 0, annotations := "" }
    let t := prepareComponent
      { download := fun _ => .ok "/tmp/image", checkFile := fun _ _ => none }
      { aosVersions := [], vendorVersions := [] }
      "1.0"
      { id := "c1", updatePriority := 0, vendorVersion := .ok "1.0",
        prepareResult := fun _ _ _ => none }
      info
    info.vendorVersion = "2.0" ∧ t.result = none ∧
    getVendorVersion t.storage "c1" = some "1.0" ∧
    getVendorVersion t.storage "c1" ≠ some info.vendorVersion := by
  exact ⟨rfl, rfl, rfl, by decide⟩

/-- C5 amended: the first step of `prepareComponent` persists the
component's current vendor version (the one held in
`handler.componentStatuses`) into vendor-version storage, before the
version checks, the image fetch/verify and the `Prepare` call: the
write is present whatever the outcome, and it is the only write. -/
theorem claim_c5_current_vendor_persisted (env : PrepareEnv) (s : Storage)
    (currentVendor : String) (m : PrepareModuleModel) (info : ComponentUpdateInfo) :
    getVendorVersion (prepareComponent env s currentVendor m info).storage info.id =
      some currentVendor ∧
    (prepareComponent env s currentVendor m info).storage =
      setVendorVersion s info.id currentVendor := by
  refine ⟨?_, prepareComponent_storage env s currentVendor m info⟩
  rw [prepareComponent_storage env s currentVendor m info]
  exact getVendorVersion_setVendorVersion s info.id currentVendor

theorem doPriorityOperations_singleton {α : Type} (op : PriorityOperation α) (stop : Bool) :
    doPriorityOperations [op] stop = ([op], op.result) := by
  show runOps stop [op] op.priority none none [] = ([op], op.result)
  simp [runOps, mergeErr_none_left, mergeErr_none_right]

/-- When the vendor-version precheck does not reject the item, the
requested aos version is non-zero and the stored aos version is
readable, `prepareComponent` rejects the item before the fetch phase:
with `wrong Aos version` on a downgrade and with the already-at-version
error on an exact match. -/
theorem prepareComponent_wrong_aos (env : PrepareEnv) (s : Storage) (cv : String)
    (m : PrepareModuleModel) (info : ComponentUpdateInfo) (stored : Nat)
    (hvp : ∀ v, m.vendorVersion = Except.ok v →
      info.vendorVersion = "" ∨ v ≠ info.vendorVersion)
    (h0 : info.aosVersion ≠ 0)
    (hstored : getAosVersion s info.id = some stored) :
    (info.aosVersion < stored →
      prepareComponent env s cv m info =
        { storage := setVendorVersion s info.id cv, downloadAttempted := false,
          prepareCalled := false, result := some "wrong Aos version" }) ∧
    (stored = info.aosVersion →
      prepareComponent env s cv m info =
        { storage := setVendorVersion s info.id cv, downloadAttempted := false,
          prepareCalled := false,
          result := some ("Component already has required Aos version: " ++
            toString info.aosVersion) }) := by
  have hAos : prepareComponent env s cv m info =
      prepareAosCheck env (setVendorVersion s info.id cv) m info := by
    unfold prepareComponent
    rcases hveq : m.vendorVersion with e | v
    · rfl
    · have hcond : ¬(info.vendorVersion ≠ "" ∧ v = info.vendorVersion) := by
        rcases hvp v hveq with h | h
        · intro hc; exact hc.1 h
        · intro hc; exact h hc.2
      change (if info.vendorVersion ≠ "" ∧ v = info.vendorVersion then
        { storage := setVendorVersion s info.id cv, downloadAttempted := false,
          prepareCalled := false,
          result := some ("Component already has required vendor version: " ++ v) }
        else prepareAosCheck env (setVendorVersion s info.id cv) m info) =
        prepareAosCheck env (setVendorVersion s info.id cv) m info
      rw [if_neg hcond]
  have hget : getAosVersion (setVendorVersion s info.id cv) info.id = some stored := hstored
  rw [hAos]
  unfold prepareAosCheck
  rw [if_pos h0]
  constructor
  · intro hlt
    split
    · rename_i v hveq2
      have hv : v = stored := Option.some.inj (hveq2.symm.trans hget)
      subst hv
      rw [if_neg (by omega), if_pos hlt]
    · rename_i hveq2
      rw [hget] at hveq2
      cases hveq2
  · intro heq
    split
    · rename_i v hveq2
      have hv : v = stored := Option.some.inj (hveq2.symm.trans hget)
      subst hv
      rw [if_pos heq]
    · rename_i hveq2
      rw [hget] at hveq2
      cases hveq2

/-- A single-item prepare transition with a matching module reduces to
the item's `prepareComponent` outcome. -/
theorem onPrepareState_singleton (env : PrepareEnv) (storage : Storage)
    (currentVendors : String → String) (m : PrepareModuleModel) (info : ComponentUpdateInfo)
    (hid : m.id = info.id) :
    onPrepareState env storage currentVendors [m] [info] =
      (match (prepareComponent env storage (currentVendors info.id) m info).result with
       | some e =>
         { fsmState := .failed, error := e,
           componentStatuses := [(info.id,
             { prepareStatusOf info with status := CompStatus.error, error := e })],
           storage := setVendorVersion storage info.id (currentVendors info.id),
           prepared := if (prepareComponent env storage (currentVendors info.id)
               m info).prepareCalled then [info.id] else [],
           downloaded := if (prepareComponent env storage (currentVendors info.id)
               m info).downloadAttempted then [info.id] else [] }
       | none =>
         { fsmState := .prepared, error := "",
           componentStatuses := [(info.id, prepareStatusOf info)],
           storage := setVendorVersion storage info.id (currentVendors info.id),
           prepared := if (prepareComponent env storage (currentVendors info.id)
               m info).prepareCalled then [info.id] else [],
           downloaded := if (prepareComponent env storage (currentVendors info.id)
               m info).downloadAttempted then [info.id] else [] }) := by
  have hbeq : (m.id == info.id) = true := by
    simp [hid]
  rcases hres : (prepareComponent env storage (currentVendors info.id) m info).result
    with _ | e
  all_goals
    simp [onPrepareState, List.find?, List.filterMap, hbeq, doPriorityOperations_singleton,
      hres, prepareStatusOf]
    constructor
    · by_cases hp :
        (prepareComponent env storage (currentVendors info.id) m info).prepareCalled <;>
        simp [List.filter, hp]
    · by_cases hd :
        (prepareComponent env storage (currentVendors info.id) m info).downloadAttempted <;>
        simp [List.filter, hd]

/-- C6 amended: for a prepare of an item with non-zero requested
aosVersion whose stored aosVersion is readable, provided the
vendor-version precheck does not already reject the item (the module's
reported vendor version differs from a non-empty requested one, or the
requested vendorVersion is empty): a stored version greater than the
requested one makes the item's prepare fail with exactly the error
"wrong Aos version", without entering the fetch phase and without
invoking the module's Prepare, and the single-item transition settles
in Failed with that global error; a stored version equal to the
requested one likewise fails with the already-at-version error and
Prepare is not invoked. -/
theorem claim_c6_downgrade_refused (env : PrepareEnv) (storage : Storage)
    (currentVendors : String → String) (m : PrepareModuleModel)
    (info : ComponentUpdateInfo) (stored : Nat)
    (hid : m.id = info.id)
    (hvp : ∀ v, m.vendorVersion = Except.ok v →
      info.vendorVersion = "" ∨ v ≠ info.vendorVersion)
    (h0 : info.aosVersion ≠ 0)
    (hstored : getAosVersion storage info.id = some stored) :
    (info.aosVersion < stored →
      (prepareComponent env storage (currentVendors info.id) m info).result =
        some "wrong Aos version" ∧
      (prepareComponent env storage (currentVendors info.id) m info).prepareCalled = false ∧
      (prepareComponent env storage (currentVendors info.id) m info).downloadAttempted
        = false ∧
      (onPrepareState env storage currentVendors [m] [info]).fsmState = .failed ∧
      (onPrepareState env storage currentVendors [m] [info]).error = "wrong Aos version" ∧
      (onPrepareState env storage currentVendors [m] [info]).prepared = [] ∧
      (onPrepareState env storage currentVendors [m] [info]).downloaded = []) ∧
    (stored = info.aosVersion →
      (prepareComponent env storage (currentVendors info.id) m info).result =
        some ("Component already has required Aos version: " ++ toString info.aosVersion) ∧
      (prepareComponent env storage (currentVendors info.id) m info).prepareCalled = false ∧
      (onPrepareState env storage currentVendors [m] [info]).fsmState = .failed ∧
      (onPrepareState env storage currentVendors [m] [info]).prepared = []) := by
  obtain ⟨hgt, heqv⟩ := prepareComponent_wrong_aos env storage (currentVendors info.id)
    m info stored hvp h0 hstored
  have hsing := onPrepareState_singleton env storage currentVendors m info hid
  constructor
  · intro hlt
    have h1 := hgt hlt
    refine ⟨by rw [h1], by rw [h1], by rw [h1], ?_, ?_, ?_, ?_⟩ <;>
      · rw [hsing, h1]; try rfl
  · intro heq2
    have h1 := heqv heq2
    refine ⟨by rw [h1], by rw [h1], ?_, ?_⟩ <;>
      · rw [hsing, h1]; try rfl

/-- Witness for C6 amended: stored aos version 7, requested 5 with an
empty requested vendorVersion. -/
theorem claim_c6_downgrade_refused_witness :
    (5 : Nat) ≠ 0 ∧
    getAosVersion { aosVersions := [("c1", 7)], vendorVersions := [] } "c1" = some 7 ∧
    (5 : Nat) < 7 ∧
    (prepareComponent
      { download := fun _ => .ok "/p", checkFile := fun _ _ => none }
      { aosVersions := [("c1", 7)], vendorVersions := [] }
      "cur"
      { id := "c1", updatePriority := 0, vendorVersion := .error "no version",
        prepareResult := fun _ _ _ => none }
      { id := "c1", vendorVersion := "", aosVersion := 5, url := "", sha256 := "",
        sha512 := "", size := 0, annotations := "" }).result = some "wrong Aos version" ∧
    (onPrepareState
      { download := fun _ => .ok "/p", checkFile := fun _ _ => none }
      { aosVersions := [("c1", 7)], vendorVersions := [] }
      (fun _ => "cur")
      [{ id := "c1", updatePriority := 0, vendorVersion := .error "no version",
         prepareResult := fun _ _ _ => none }]
      [{ id := "c1", vendorVersion := "", aosVersion := 5, url := "", sha256 := "",
         sha512 := "", size := 0, annotations := "" }]).fsmState = .failed := by
  have h := claim_c6_downgrade_refused
    { download := fun _ => .ok "/p", checkFile := fun _ _ => none }
    { aosVersions := [("c1", 7)], vendorVersions := [] }
    (fun _ => "cur")
    { id := "c1", updatePriority := 0, vendorVersion := .error "no version",
      prepareResult := fun _ _ _ => none }
    { id := "c1", vendorVersion := "", aosVersion := 5, url := "", sha256 := "",
      sha512 := "", size := 0, annotations := "" }
    7 rfl (fun v hv => by cases hv) (by decide) rfl
  obtain ⟨hres, _, _, hfsm, _, _, _⟩ := h.1 (by decide)
  exact ⟨by decide, rfl, by decide, hres, hfsm⟩

/-- C6 as stated is false at an item whose module already reports the
requested (non-empty) vendor version: the prepare then aborts with the
already-has-vendor-version error, which is not "wrong Aos version",
even though the stored aos version exceeds the non-zero requested
one. -/
theorem claim_c6_counterexample :
    let m : PrepareModuleModel :=
      { id := "c1", updatePriority := 0, vendorVersion := Except.ok "1.0",
        prepareResult := fun _ _ _ => none }
    let info : ComponentUpdateInfo :=
      { id := "c1", vendorVersion := "1.0", aosVersion := 1, url := "", sha256 := "",
        sha512 := "", size := 0, annotations := "" }
    let storage : Storage := { aosVersions := [("c1", 5)], vendorVersions := [] }
    let env : PrepareEnv := { download := fun _ => .ok "/p", checkFile := fun _ _ => none }
    info.aosVersion ≠ 0 ∧
    getAosVersion storage "c1" = some 5 ∧
    info.aosVersion < 5 ∧
    (prepareComponent env storage "cur" m info).result =
      some "Component already has required vendor version: 1.0" ∧
    (prepareComponent env storage "cur" m info).result ≠ some "wrong Aos version" ∧
    (onPrepareState env storage (fun _ => "cur") [m] [info]).error ≠ "wrong Aos version" := by
  decide

/-! ## `Handler.onApplyState` -/

/-- Module model for the apply transition: results of its successive
`Apply()` and `Reboot()` calls, with the configured priorities. -/
structure ApplyModuleModel where
  id : String
  updatePriority : Nat
  rebootPriority : Nat
  applyResults : List (Bool × Option String)
  rebootResults : List (Option String)
  deriving DecidableEq, Repr

/-- The apply operation closure around one `Apply()` result: an `Apply`
error is returned as is; on success the component's in-flight status is
looked up (missing status → error) and `SetAosVersion` (always
succeeding in the model) stores the status's aos version. -/
def applyOpCall (statuses : List (String × ComponentStatusInfo)) (id : String)
    (r : Bool × Option String) : Bool × Option String :=
  match r with
  | (rb, some e) => (rb, some e)
  | (rb, none) =>
    match statuses.find? (fun kv => kv.1 == id) with
    | none => (rb, some ("component " ++ id ++ " status not found"))
    | some _ => (rb, none)

/-- The behaviour of a module inside the apply reboot loop. -/
def applyBehavior (statuses : List (String × ComponentStatusInfo))
    (m : ApplyModuleModel) : ModBehavior :=
  { id := m.id, updatePriority := m.updatePriority, rebootPriority := m.rebootPriority,
    opResults := m.applyResults.map (applyOpCall statuses m.id),
    rebootResults := m.rebootResults }

/-- The `SetAosVersion` writes performed inside the apply operation:
one write of the status's aos version per successful call. -/
def applyWrites (statuses : List (String × ComponentStatusInfo)) (storage : Storage)
    (log : List OpCall) : Storage :=
  log.foldl (fun z c =>
    if c.result = none then
      match statuses.find? (fun kv => kv.1 == c.id) with
      | some kv => setAosVersion z c.id kv.2.aosVersion
      | none => z
    else z) storage

/-- Result of the apply transition callback. -/
structure ApplyTransitionResult where
  log : List OpCall
  fsmState : UpdateState
  error : String
  storage : Storage

/-- `Handler.onApplyState`: run the apply reboot loop over the in-flight
set with `stopOnError = false`; a loop error only sets the global error
(the FSM is never moved, so the destination stays the apply event's
Idle). -/
def onApplyState (modules : List ApplyModuleModel)
    (statuses : List (String × ComponentStatusInfo)) (storage : Storage) :
    ApplyTransitionResult :=
  let r := componentOperation false (modules.map (applyBehavior statuses))
  { log := r.1, fsmState := .idle,
    error := match r.2 with | some e => e | none => "",
    storage := applyWrites statuses storage r.1 }

theorem getAosVersion_setAosVersion_self (s : Storage) (id : String) (v : Nat) :
    getAosVersion (setAosVersion s id v) id = some v := by
  simp [getAosVersion, setAosVersion, List.find?]

theorem getAosVersion_setAosVersion_other (s : Storage) (k id : String) (v : Nat)
    (h : k ≠ id) : getAosVersion (setAosVersion s k v) id = getAosVersion s id := by
  have hb : (k == id) = false := by
    simp [h]
  simp [getAosVersion, setAosVersion, List.find?, hb]

/-- Every write the apply pass performs for a given id stores the same
value (the status's aos version), so an already-stored value for that
id survives the remaining writes. -/
theorem applyWrites_preserve (statuses : List (String × ComponentStatusInfo))
    (id : String) (kv : String × ComponentStatusInfo)
    (hst : statuses.find? (fun kv' => kv'.1 == id) = some kv) (log : List OpCall) :
    ∀ storage : Storage, getAosVersion storage id = some kv.2.aosVersion →
    getAosVersion (applyWrites statuses storage log) id = some kv.2.aosVersion := by
  induction log with
  | nil => intro storage h; exact h
  | cons c rest ih =>
    intro storage h
    show getAosVersion (applyWrites statuses
      (if c.result = none then
        match statuses.find? (fun kv' => kv'.1 == c.id) with
        | some kv' => setAosVersion storage c.id kv'.2.aosVersion
        | none => storage
       else storage) rest) id = some kv.2.aosVersion
    apply ih
    by_cases hres : c.result = none
    · rw [if_pos hres]
      by_cases hid : c.id = id
      · have hst' : statuses.find? (fun kv' => kv'.1 == c.id) = some kv := by
          rw [hid]; exact hst
        rw [hst']
        show getAosVersion (setAosVersion storage c.id kv.2.aosVersion) id =
          some kv.2.aosVersion
        rw [hid, getAosVersion_setAosVersion_self]
      · rcases hfind : statuses.find? (fun kv' => kv'.1 == c.id) with _ | kv'
        · rw [hfind]
          exact h
        · rw [hfind]
          show getAosVersion (setAosVersion storage c.id kv'.2.aosVersion) id =
            some kv.2.aosVersion
          rw [getAosVersion_setAosVersion_other _ _ _ _ hid]
          exact h
    · rw [if_neg hres]
      exact h

/-- If the log holds a successful call for an id whose status is
present, the apply pass leaves that status's aos version in storage. -/
theorem applyWrites_success (statuses : List (String × ComponentStatusInfo))
    (id : String) (kv : String × ComponentStatusInfo)
    (hst : statuses.find? (fun kv' => kv'.1 == id) = some kv) (log : List OpCall) :
    ∀ storage : Storage, (∃ c ∈ log, c.id = id ∧ c.result = none) →
    getAosVersion (applyWrites statuses storage log) id = some kv.2.aosVersion := by
  induction log with
  | nil =>
    intro storage h
    obtain ⟨c, hc, _⟩ := h
    cases hc
  | cons c rest ih =>
    intro storage h
    show getAosVersion (applyWrites statuses
      (if c.result = none then
        match statuses.find? (fun kv' => kv'.1 == c.id) with
        | some kv' => setAosVersion storage c.id kv'.2.aosVersion
        | none => storage
       else storage) rest) id = some kv.2.aosVersion
    obtain ⟨c', hc', hcid, hcres⟩ := h
    rcases List.mem_cons.mp hc' with hhead | htail
    · subst hhead
      apply applyWrites_preserve statuses id kv hst rest
      rw [if_pos hcres]
      rw [hcid, hst, getAosVersion_setAosVersion_self]
    · exact ih _ ⟨c', htail, hcid, hcres⟩

/-- With `stopOnError = false` a scheduler pass runs every in-flight
component regardless of errors. -/
theorem executedOf_perm_false (active : List (ModBehavior × Nat)) :
    (executedOf active false).Perm active := by
  unfold executedOf
  rw [(doPriorityOperations_spec (roundOps active)).1]
  have h1 : (sortOps (roundOps active)).Perm (roundOps active) :=
    List.perm_insertionSort opGE (roundOps active)
  have h2 := h1.map PriorityOperation.payload
  rwa [roundOps_map_payload] at h2

/-- With `stopOnError = false` the first pass's calls are a prefix of
the loop's log. -/
theorem componentOperationAux_false_log (active : List (ModBehavior × Nat))
    (err : Option String) (hne : active ≠ []) :
    ∃ tail, (componentOperationAux false active err).1 =
      callsOf (executedOf active false) ++ tail := by
  rw [componentOperationAux]
  rw [if_neg hne]
  simp only [Bool.false_and, Bool.false_eq_true, if_false]
  by_cases hsurv : survivorsOf (executedOf active false) = []
  · rw [dif_pos hsurv]
    exact ⟨[], by simp⟩
  · rw [dif_neg hsurv]
    exact ⟨_, rfl⟩

/-- A single component whose first call reports `(false, nil)` makes
exactly one call and the loop returns no error. -/
theorem componentOperation_single_noreboot (stop : Bool) (b : ModBehavior)
    (hb : opResult b 0 = (false, none)) :
    componentOperation stop [b] =
      ([{ id := b.id, callIdx := 0, rebootRequired := false, result := none }], none) := by
  have h1 : (opResult b 0).1 = false := by rw [hb]
  have h2 : (opResult b 0).2 = none := by rw [hb]
  show componentOperationAux stop [(b, 0)] none = _
  rw [componentOperationAux]
  rw [if_neg (by simp : ¬([(b, 0)] : List (ModBehavior × Nat)) = [])]
  have hrops : roundOps [(b, (0 : Nat))] =
      [{ priority := b.updatePriority, payload := (b, 0), result := (opResult b 0).2 }] := rfl
  have hdpo : doPriorityOperations (roundOps [(b, (0 : Nat))]) stop =
      ([{ priority := b.updatePriority, payload := (b, 0), result := (opResult b 0).2 }],
        (opResult b 0).2) := by
    rw [hrops, doPriorityOperations_singleton]
  have hexec : executedOf [(b, (0 : Nat))] stop = [(b, 0)] := by
    unfold executedOf
    rw [hdpo]
    rfl
  have hsurv : survivorsOf (executedOf [(b, (0 : Nat))] stop) = [] := by
    rw [hexec]
    simp [survivorsOf, List.filter, h1]
  simp only [hdpo, h2, Option.isSome_none, Bool.and_false, Bool.false_eq_true, if_false,
    hexec, hsurv, dif_pos, mergeErr_none_right]
  simp [callsOf, h1, h2]
  intro hcontra
  rw [hexec] at hsurv
  exact absurd hsurv hcontra

/-- C8: the apply pass never moves the FSM — it settles in the apply
event's destination Idle whatever the per-component outcomes; a loop
error only surfaces as the global error; every in-flight component's
Apply runs at least once (`stopOnError = false`); and every component
with a successful Apply call gets its in-flight status's aos version —
the one the controller submitted at prepare — written to storage. -/
theorem claim_c8_apply_best_effort (modules : List ApplyModuleModel)
    (statuses : List (String × ComponentStatusInfo)) (storage : Storage) :
    (onApplyState modules statuses storage).fsmState = .idle ∧
    (∀ e, (componentOperation false (modules.map (applyBehavior statuses))).2 = some e →
      (onApplyState modules statuses storage).error = e ∧
      (onApplyState modules statuses storage).fsmState = .idle) ∧
    (∀ m ∈ modules, 0 < countCallsOf (onApplyState modules statuses storage).log m.id) ∧
    (∀ m ∈ modules, ∀ kv, statuses.find? (fun kv' => kv'.1 == m.id) = some kv →
      (∃ c ∈ (onApplyState modules statuses storage).log, c.id = m.id ∧ c.result = none) →
      getAosVersion (onApplyState modules statuses storage).storage m.id =
        some kv.2.aosVersion) ∧
    (∀ info : ComponentUpdateInfo, (prepareStatusOf info).aosVersion = info.aosVersion) := by
  refine ⟨rfl, ?_, ?_, ?_, fun info => rfl⟩
  · intro e he
    constructor
    · show (match (componentOperation false (modules.map (applyBehavior statuses))).2 with
        | some e => e | none => "") = e
      rw [he]
    · rfl
  · intro m hm
    have hne : (modules.map (applyBehavior statuses)).map
        (fun b => (b, (0 : Nat))) ≠ [] := by
      intro hcontra
      have hlen : modules.length = 0 := by
        simpa using congrArg List.length hcontra
      rw [List.length_eq_zero] at hlen
      subst hlen
      cases hm
    obtain ⟨tail, htail⟩ := componentOperationAux_false_log _ none hne
    show 0 < countCallsOf (componentOperationAux false
      ((modules.map (applyBehavior statuses)).map (fun b => (b, 0))) none).1 m.id
    rw [htail, countCallsOf_append, countCallsOf_callsOf]
    have hperm := executedOf_perm_false
      ((modules.map (applyBehavior statuses)).map (fun b => (b, 0)))
    rw [hperm.countP_eq]
    have hmem : ((applyBehavior statuses m), (0 : Nat)) ∈
        (modules.map (applyBehavior statuses)).map (fun b => (b, 0)) :=
      List.mem_map.mpr ⟨applyBehavior statuses m, List.mem_map.mpr ⟨m, hm, rfl⟩, rfl⟩
    have hpos : 0 < ((modules.map (applyBehavior statuses)).map
        (fun b => (b, (0 : Nat)))).countP (fun bn => bn.1.id == m.id) :=
      List.countP_pos_iff.mpr ⟨_, hmem, by simp [applyBehavior]⟩
    omega
  · intro m hm kv hst hex
    exact applyWrites_success statuses m.id kv hst _ storage hex

/-- Witness for C8: one component whose single Apply call succeeds. -/
theorem claim_c8_apply_best_effort_witness :
    (onApplyState
      [{ id := "c1", updatePriority := 1, rebootPriority := 1,
         applyResults := [(false, none)], rebootResults := [] }]
      [("c1", { id := "c1", vendorVersion := "1.0", aosVersion := 9,
                status := CompStatus.installing, error := "" })]
      { aosVersions := [], vendorVersions := [] }).fsmState = .idle ∧
    0 < countCallsOf (onApplyState
      [{ id := "c1", updatePriority := 1, rebootPriority := 1,
         applyResults := [(false, none)], rebootResults := [] }]
      [("c1", { id := "c1", vendorVersion := "1.0", aosVersion := 9,
                status := CompStatus.installing, error := "" })]
      { aosVersions := [], vendorVersions := [] }).log "c1" ∧
    getAosVersion (onApplyState
      [{ id := "c1", updatePriority := 1, rebootPriority := 1,
         applyResults := [(false, none)], rebootResults := [] }]
      [("c1", { id := "c1", vendorVersion := "1.0", aosVersion := 9,
                status := CompStatus.installing, error := "" })]
      { aosVersions := [], vendorVersions := [] }).storage "c1" = some 9 := by
  have hb : opResult (applyBehavior
      [("c1", { id := "c1", vendorVersion := "1.0", aosVersion := 9,
                status := CompStatus.installing, error := "" })]
      { id := "c1", updatePriority := 1, rebootPriority := 1,
        applyResults := [(false, none)], rebootResults := [] }) 0 = (false, none) := by
    decide
  have hlog := componentOperation_single_noreboot false _ hb
  have h := claim_c8_apply_best_effort
    [{ id := "c1", updatePriority := 1, rebootPriority := 1,
       applyResults := [(false, none)], rebootResults := [] }]
    [("c1", { id := "c1", vendorVersion := "1.0", aosVersion := 9,
              status := CompStatus.installing, error := "" })]
    { aosVersions := [], vendorVersions := [] }
  have hmem : ({ id := "c1", updatePriority := 1, rebootPriority := 1,
                 applyResults := [(false, none)], rebootResults := [] } : ApplyModuleModel) ∈
      [({ id := "c1", updatePriority := 1, rebootPriority := 1,
          applyResults := [(false, none)], rebootResults := [] } : ApplyModuleModel)] :=
    List.mem_singleton.mpr rfl
  have hlogEq : (onApplyState
      [{ id := "c1", updatePriority := 1, rebootPriority := 1,
         applyResults := [(false, none)], rebootResults := [] }]
      [("c1", { id := "c1", vendorVersion := "1.0", aosVersion := 9,
                status := CompStatus.installing, error := "" })]
      { aosVersions := [], vendorVersions := [] }).log =
      [{ id := "c1", callIdx := 0, rebootRequired := false, result := none }] := by
    show (componentOperation false [applyBehavior
      [("c1", { id := "c1", vendorVersion := "1.0", aosVersion := 9,
                status := CompStatus.installing, error := "" })]
      { id := "c1", updatePriority := 1, rebootPriority := 1,
        applyResults := [(false, none)], rebootResults := [] }]).1 = _
    rw [hlog]
    rfl
  refine ⟨h.1, ?_, ?_⟩
  · exact h.2.2.1 _ hmem
  · refine h.2.2.2.1 _ hmem
      ("c1", { id := "c1", vendorVersion := "1.0", aosVersion := 9,
               status := CompStatus.installing, error := "" }) rfl ?_
    rw [hlogEq]
    exact ⟨_, List.mem_singleton.mpr rfl, rfl, rfl⟩

/-! ## Claim C4: aos version monotonicity across applies -/

/-- When a prepare of an item with non-zero requested aos version and a
readable stored aos version succeeds, the requested version is strictly
greater than the stored one (the equal and downgrade cases were
rejected). -/
theorem prepareComponent_success_aos (env : PrepareEnv) (s : Storage) (cv : String)
    (m : PrepareModuleModel) (info : ComponentUpdateInfo) (stored : Nat)
    (hres : (prepareComponent env s cv m info).result = none)
    (h0 : info.aosVersion ≠ 0)
    (hstored : getAosVersion s info.id = some stored) :
    stored < info.aosVersion := by
  have hAC : (prepareAosCheck env (setVendorVersion s info.id cv) m info).result = none := by
    unfold prepareComponent at hres
    rcases hveq : m.vendorVersion with e | v
    · rw [hveq] at hres
      exact hres
    · rw [hveq] at hres
      have hres' : ((if info.vendorVersion ≠ "" ∧ v = info.vendorVersion then
          ({ storage := setVendorVersion s info.id cv, downloadAttempted := false,
             prepareCalled := false,
             result := some ("Component already has required vendor version: " ++ v) }
            : PrepareTrace)
          else prepareAosCheck env (setVendorVersion s info.id cv) m info)).result =
          none := hres
      by_cases hcond : info.vendorVersion ≠ "" ∧ v = info.vendorVersion
      · rw [if_pos hcond] at hres'
        cases hres'
      · rw [if_neg hcond] at hres'
        exact hres'
  have hget : getAosVersion (setVendorVersion s info.id cv) info.id = some stored := hstored
  unfold prepareAosCheck at hAC
  rw [if_pos h0] at hAC
  split at hAC
  · rename_i v hveq2
    have hv : v = stored := Option.some.inj (hveq2.symm.trans hget)
    subst hv
    split at hAC
    · simp at hAC
    · split at hAC
      · simp at hAC
      · rename_i hne hnlt
        omega
  · rename_i hveq2
    rw [hget] at hveq2
    cases hveq2

/-- C4 amended: across a successful single-component
prepare/update/apply pipeline, when the requested aos version is
non-zero and the stored aos version was readable at prepare, the value
the apply writes (the requested version) is strictly greater than the
previously stored one.  (A request with aos version 0, or an unreadable
stored version, bypasses the check entirely — see the
counterexample.) -/
theorem claim_c4_monotonic_when_nonzero (env : PrepareEnv) (storage : Storage)
    (currentVendors : String → String) (pm : PrepareModuleModel) (am : ApplyModuleModel)
    (info : ComponentUpdateInfo) (stored : Nat)
    (hpid : pm.id = info.id) (haid : am.id = info.id)
    (h0 : info.aosVersion ≠ 0)
    (hstored : getAosVersion storage info.id = some stored)
    (hprep : (prepareComponent env storage (currentVendors info.id) pm info).result = none)
    (happly : am.applyResults = [(false, none)]) :
    stored < info.aosVersion ∧
    (onPrepareState env storage currentVendors [pm] [info]).fsmState = .prepared ∧
    getAosVersion (onApplyState [am]
      (onPrepareState env storage currentVendors [pm] [info]).componentStatuses
      (onPrepareState env storage currentVendors [pm] [info]).storage).storage info.id =
      some info.aosVersion := by
  have hlt := prepareComponent_success_aos env storage (currentVendors info.id) pm info
    stored hprep h0 hstored
  have hsing := onPrepareState_singleton env storage currentVendors pm info hpid
  have htr : onPrepareState env storage currentVendors [pm] [info] =
      { fsmState := .prepared, error := "",
        componentStatuses := [(info.id, prepareStatusOf info)],
        storage := setVendorVersion storage info.id (currentVendors info.id),
        prepared := if (prepareComponent env storage
            (currentVendors info.id) pm info).prepareCalled then [info.id] else [],
        downloaded := if (prepareComponent env storage
            (currentVendors info.id) pm info).downloadAttempted then [info.id] else [] } := by
    rw [hsing, hprep]
  have hb : opResult (applyBehavior [(info.id, prepareStatusOf info)] am) 0 =
      (false, none) := by
    show ((am.applyResults.map
      (applyOpCall [(info.id, prepareStatusOf info)] am.id)).getD 0 (false, none)) =
      (false, none)
    rw [happly]
    show applyOpCall [(info.id, prepareStatusOf info)] am.id (false, none) = (false, none)
    unfold applyOpCall
    have hfind : ([(info.id, prepareStatusOf info)].find?
        (fun kv => kv.1 == am.id)) = some (info.id, prepareStatusOf info) := by
      rw [haid]
      simp [List.find?]
    rw [hfind]
  have hlog := componentOperation_single_noreboot false
    (applyBehavior [(info.id, prepareStatusOf info)] am) hb
  refine ⟨hlt, by rw [htr], ?_⟩
  rw [htr]
  show getAosVersion (applyWrites [(info.id, prepareStatusOf info)]
    (setVendorVersion storage info.id (currentVendors info.id))
    (componentOperation false
      [applyBehavior [(info.id, prepareStatusOf info)] am]).1) info.id =
    some info.aosVersion
  rw [hlog]
  exact applyWrites_success [(info.id, prepareStatusOf info)] info.id
    (info.id, prepareStatusOf info) (by simp [List.find?]) _ _
    ⟨_, List.mem_singleton.mpr rfl, haid, rfl⟩

/-- C4 as stated is false: a request item with aos version 0 skips the
downgrade check entirely, so a successful pipeline writes aos version 0
over a stored value of 5 — the written value is smaller than the
previously stored one. -/
theorem claim_c4_counterexample :
    let env : PrepareEnv := { download := fun _ => .ok "/p", checkFile := fun _ _ => none }
    let storage : Storage := { aosVersions := [("c1", 5)], vendorVersions := [] }
    let pm : PrepareModuleModel :=
      { id := "c1", updatePriority := 0, vendorVersion := .ok "1.0",
        prepareResult := fun _ _ _ => none }
    let info : ComponentUpdateInfo :=
      { id := "c1", vendorVersion := "2.0", aosVersion := 0, url := "", sha256 := "",
        sha512 := "", size := 0, annotations := "" }
    let am : ApplyModuleModel :=
      { id := "c1", updatePriority := 0, rebootPriority := 0,
        applyResults := [(false, none)], rebootResults := [] }
    let tr := onPrepareState env storage (fun _ => "1.0") [pm] [info]
    let ar := onApplyState [am] tr.componentStatuses tr.storage
    getAosVersion storage "c1" = some 5 ∧
    info.aosVersion = 0 ∧
    tr.fsmState = .prepared ∧
    getAosVersion ar.storage "c1" = some 0 ∧
    (0 : Nat) < 5 := by
  intro env storage pm info am tr ar
  have htr : tr =
      { fsmState := .prepared, error := "",
        componentStatuses := [("c1",
          { id := "c1", vendorVersion := "2.0", aosVersion := 0,
            status := CompStatus.installing, error := "" })],
        storage := { aosVersions := [("c1", 5)], vendorVersions := [("c1", "1.0")] },
        prepared := ["c1"], downloaded := ["c1"] } := by
    rfl
  have hb : opResult (applyBehavior [("c1",
      { id := "c1", vendorVersion := "2.0", aosVersion := 0,
        status := CompStatus.installing, error := "" })] am) 0 = (false, none) := by
    decide
  have hlog := componentOperation_single_noreboot false _ hb
  refine ⟨rfl, rfl, by rw [htr], ?_, by decide⟩
  show getAosVersion (onApplyState [am] tr.componentStatuses tr.storage).storage "c1" =
    some 0
  rw [htr]
  show getAosVersion (applyWrites [("c1",
      { id := "c1", vendorVersion := "2.0", aosVersion := 0,
        status := CompStatus.installing, error := "" })]
    { aosVersions := [("c1", 5)], vendorVersions := [("c1", "1.0")] }
    (componentOperation false [applyBehavior [("c1",
      { id := "c1", vendorVersion := "2.0", aosVersion := 0,
        status := CompStatus.installing, error := "" })] am]).1) "c1" = some 0
  rw [hlog]
  rfl

/-- Witness for C4 amended: stored aos version 3, requested 7. -/
theorem claim_c4_monotonic_when_nonzero_witness :
    (7 : Nat) ≠ 0 ∧
    getAosVersion { aosVersions := [("c1", 3)], vendorVersions := [] } "c1" = some 3 ∧
    (prepareComponent
      { download := fun _ => .ok "/p", checkFile := fun _ _ => none }
      { aosVersions := [("c1", 3)], vendorVersions := [] }
      "1.0"
      { id := "c1", updatePriority := 0, vendorVersion := .ok "1.0",
        prepareResult := fun _ _ _ => none }
      { id := "c1", vendorVersion := "2.0", aosVersion := 7, url := "", sha256 := "",
        sha512 := "", size := 0, annotations := "" }).result = none ∧
    (3 : Nat) < 7 ∧
    getAosVersion (onApplyState
      [{ id := "c1", updatePriority := 0, rebootPriority := 0,
         applyResults := [(false, none)], rebootResults := [] }]
      (onPrepareState
        { download := fun _ => .ok "/p", checkFile := fun _ _ => none }
        { aosVersions := [("c1", 3)], vendorVersions := [] }
        (fun _ => "1.0")
        [{ id := "c1", updatePriority := 0, vendorVersion := .ok "1.0",
           prepareResult := fun _ _ _ => none }]
        [{ id := "c1", vendorVersion := "2.0", aosVersion := 7, url := "", sha256 := "",
           sha512 := "", size := 0, annotations := "" }]).componentStatuses
      (onPrepareState
        { download := fun _ => .ok "/p", checkFile := fun _ _ => none }
        { aosVersions := [("c1", 3)], vendorVersions := [] }
        (fun _ => "1.0")
        [{ id := "c1", updatePriority := 0, vendorVersion := .ok "1.0",
           prepareResult := fun _ _ _ => none }]
        [{ id := "c1", vendorVersion := "2.0", aosVersion := 7, url := "", sha256 := "",
           sha512 := "", size := 0, annotations := "" }]).storage).storage "c1" =
      some 7 := by
  have h := claim_c4_monotonic_when_nonzero
    { download := fun _ => .ok "/p", checkFile := fun _ _ => none }
    { aosVersions := [("c1", 3)], vendorVersions := [] }
    (fun _ => "1.0")
    { id := "c1", updatePriority := 0, vendorVersion := .ok "1.0",
      prepareResult := fun _ _ _ => none }
    { id := "c1", updatePriority := 0, rebootPriority := 0,
      applyResults := [(false, none)], rebootResults := [] }
    { id := "c1", vendorVersion := "2.0", aosVersion := 7, url := "", sha256 := "",
      sha512 := "", size := 0, annotations := "" }
    3 rfl rfl (by decide) rfl (by decide) rfl
  exact ⟨by decide, rfl, by decide, h.1, h.2.2⟩

/-! ## `Handler.onUpdateState` -/

/-- Module model for the update transition: results of its successive
`Update()` calls, its `GetVendorVersion()` (`.error` is the error
return), its `Reboot()` results and the configured priorities. -/
structure UpdateModuleModel where
  id : String
  updatePriority : Nat
  rebootPriority : Nat
  updateResults : List (Bool × Option String)
  vendorVersion : Except String String
  rebootResults : List (Option String)

/-- The update operation closure around one `Update()` result: an
error is returned with `rebootRequired = false`; a reboot request is
passed through; a terminal `false` triggers the vendor-version
validation — `GetVendorVersion` is read and compared with the
requested vendor version, failing the call on error or mismatch. -/
def updateOpCall (m : UpdateModuleModel) (requested : String) (r : Bool × Option String) :
    Bool × Option String :=
  match r with
  | (_, some e) => (false, some e)
  | (true, none) => (true, none)
  | (false, none) =>
    match m.vendorVersion with
    | .error e => (false, some e)
    | .ok v =>
      if v ≠ requested then
        (false, some ("versions mismatch in request " ++ requested ++
          " and updated module " ++ v))
      else (false, none)

/-- The behaviour of a module inside the update reboot loop; the
requested vendor version comes from `state.ComponentStatuses`. -/
def updateBehavior (requested : String → String) (m : UpdateModuleModel) : ModBehavior :=
  { id := m.id, updatePriority := m.updatePriority, rebootPriority := m.rebootPriority,
    opResults := m.updateResults.map (updateOpCall m (requested m.id)),
    rebootResults := m.rebootResults }

/-- Result of the update transition callback. -/
structure UpdateTransitionResult where
  log : List OpCall
  fsmState : UpdateState
  error : String

/-- `Handler.onUpdateState`: run the update reboot loop with
`stopOnError = true`; on error record it and move the FSM to Failed,
otherwise settle in Updated. -/
def onUpdateState (modules : List UpdateModuleModel) (requested : String → String) :
    UpdateTransitionResult :=
  let r := componentOperation true (modules.map (updateBehavior requested))
  match r.2 with
  | some e => { log := r.1, fsmState := .failed, error := e }
  | none => { log := r.1, fsmState := .updated, error := "" }

theorem onUpdateState_log (modules : List UpdateModuleModel) (requested : String → String) :
    (onUpdateState modules requested).log =
      (componentOperation true (modules.map (updateBehavior requested))).1 := by
  unfold onUpdateState
  rcases h2 : (componentOperation true (modules.map (updateBehavior requested))).2
    with _ | e <;> simp [h2]

theorem updateBehavior_ids (requested : String → String)
    (modules : List UpdateModuleModel) :
    idsOf ((modules.map (updateBehavior requested)).map (fun b => (b, 0))) =
      modules.map UpdateModuleModel.id := by
  induction modules with
  | nil => rfl
  | cons m rest ih =>
    simp only [List.map_cons, idsOf] at ih ⊢
    rw [ih]
    rfl

/-- C3: in an update transition where no operation returns an error
(every `Update()` call succeeds, every `GetVendorVersion` matches the
requested version, every reboot succeeds), each component's number of
`Update()` invocations equals its number of `rebootRequired = true`
returns plus one. -/
theorem claim_c3_update_call_count (modules : List UpdateModuleModel)
    (requested : String → String)
    (hND : (modules.map UpdateModuleModel.id).Nodup)
    (hupd : ∀ m ∈ modules, ∀ r ∈ m.updateResults, r.2 = none)
    (hvendor : ∀ m ∈ modules, m.vendorVersion = Except.ok (requested m.id))
    (hreboot : ∀ m ∈ modules, ∀ r ∈ m.rebootResults, r = none) :
    ∀ m ∈ modules,
      countCallsOf (onUpdateState modules requested).log m.id =
        countTrueCallsOf (onUpdateState modules requested).log m.id + 1 := by
  intro m hm
  have hEF : ∀ bn ∈ (modules.map (updateBehavior requested)).map
      (fun b => (b, (0 : Nat))), ErrFree bn.1 := by
    intro bn hbn
    obtain ⟨b, hb, rfl⟩ := List.mem_map.mp hbn
    obtain ⟨m', hm', rfl⟩ := List.mem_map.mp hb
    constructor
    · intro r' hr'
      obtain ⟨r, hr, rfl⟩ := List.mem_map.mp hr'
      have hr2 : r.2 = none := hupd m' hm' r hr
      rcases r with ⟨rb, re⟩
      simp only at hr2
      subst hr2
      cases rb
      · show (updateOpCall m' (requested m'.id) (false, none)).2 = none
        unfold updateOpCall
        rw [hvendor m' hm']
        simp
      · rfl
    · intro r hr
      exact hreboot m' hm' r hr
  have hND' : (idsOf ((modules.map (updateBehavior requested)).map
      (fun b => (b, 0)))).Nodup := by
    rw [updateBehavior_ids]
    exact hND
  obtain ⟨hMem, _⟩ := componentOperationAux_counts true
    (loopMeasure ((modules.map (updateBehavior requested)).map (fun b => (b, 0))) + 1)
    ((modules.map (updateBehavior requested)).map (fun b => (b, 0))) none
    (by omega) hEF hND'
  have hbn : ((updateBehavior requested m), (0 : Nat)) ∈
      (modules.map (updateBehavior requested)).map (fun b => (b, 0)) :=
    List.mem_map.mpr ⟨updateBehavior requested m, List.mem_map.mpr ⟨m, hm, rfl⟩, rfl⟩
  obtain ⟨hc, ht⟩ := hMem _ hbn
  have hc' : countCallsOf (componentOperationAux true
      ((modules.map (updateBehavior requested)).map (fun b => (b, 0))) none).1 m.id =
      truesFrom (updateBehavior requested m) 0 + 1 := hc
  have ht' : countTrueCallsOf (componentOperationAux true
      ((modules.map (updateBehavior requested)).map (fun b => (b, 0))) none).1 m.id =
      truesFrom (updateBehavior requested m) 0 := ht
  rw [onUpdateState_log]
  show countCallsOf (componentOperationAux true
    ((modules.map (updateBehavior requested)).map (fun b => (b, 0))) none).1 m.id =
    countTrueCallsOf (componentOperationAux true
    ((modules.map (updateBehavior requested)).map (fun b => (b, 0))) none).1 m.id + 1
  rw [hc', ht']

/-- Witness for C3: one component that requests one reboot and then
finishes — two Update calls, one true return. -/
theorem claim_c3_update_call_count_witness :
    ((["c1"] : List String).Nodup) ∧
    countCallsOf (onUpdateState
      [{ id := "c1", updatePriority := 0, rebootPriority := 0,
         updateResults := [(true, none), (false, none)], vendorVersion := .ok "1.0",
         rebootResults := [none] }] (fun _ => "1.0")).log "c1" =
      countTrueCallsOf (onUpdateState
      [{ id := "c1", updatePriority := 0, rebootPriority := 0,
         updateResults := [(true, none), (false, none)], vendorVersion := .ok "1.0",
         rebootResults := [none] }] (fun _ => "1.0")).log "c1" + 1 := by
  refine ⟨by decide, ?_⟩
  have h := claim_c3_update_call_count
    [{ id := "c1", updatePriority := 0, rebootPriority := 0,
       updateResults := [(true, none), (false, none)], vendorVersion := .ok "1.0",
       rebootResults := [none] }] (fun _ => "1.0")
    (by decide)
    (by intro m hm r hr
        rw [List.mem_singleton] at hm
        subst hm
        rcases List.mem_cons.mp hr with h1 | h2
        · subst h1
          rfl
        · rw [List.mem_singleton] at h2
          subst h2
          rfl)
    (by intro m hm
        rw [List.mem_singleton] at hm
        subst hm
        rfl)
    (by intro m hm r hr
        rw [List.mem_singleton] at hm
        subst hm
        rw [List.mem_singleton] at hr
        subst hr
        rfl)
  exact h _ (List.mem_singleton.mpr rfl)

/-! ## Claim C7: vendor validation after a terminal update call -/

/-- One unrolling of the reboot loop body. -/
theorem componentOperationAux_eq (stop : Bool) (active : List (ModBehavior × Nat))
    (err : Option String) (hne : active ≠ []) :
    componentOperationAux stop active err =
      (if stop && (doPriorityOperations (roundOps active) stop).2.isSome then
        (callsOf (executedOf active stop), (doPriorityOperations (roundOps active) stop).2)
      else if survivorsOf (executedOf active stop) = [] then
        (callsOf (executedOf active stop),
          mergeErr err (doPriorityOperations (roundOps active) stop).2)
      else if stop && (doPriorityOperations
          (rebootOps (survivorsOf (executedOf active stop))) stop).2.isSome then
        (callsOf (executedOf active stop),
          (doPriorityOperations (rebootOps (survivorsOf (executedOf active stop))) stop).2)
      else
        (callsOf (executedOf active stop) ++
          (componentOperationAux stop ((survivorsOf (executedOf active stop)).map incIdx)
            (mergeErr (mergeErr err (doPriorityOperations (roundOps active) stop).2)
              (doPriorityOperations
                (rebootOps (survivorsOf (executedOf active stop))) stop).2)).1,
         (componentOperationAux stop ((survivorsOf (executedOf active stop)).map incIdx)
            (mergeErr (mergeErr err (doPriorityOperations (roundOps active) stop).2)
              (doPriorityOperations
                (rebootOps (survivorsOf (executedOf active stop))) stop).2)).2)) := by
  rw [componentOperationAux, if_neg hne]
  by_cases h1 : stop && (doPriorityOperations (roundOps active) stop).2.isSome
  · rw [if_pos h1, if_pos h1]
  · rw [if_neg h1, if_neg h1]
    by_cases h2 : survivorsOf (executedOf active stop) = []
    · rw [dif_pos h2, if_pos h2]
    · rw [dif_neg h2, if_neg h2]

/-- A scheduler pass that returns no error ran only succeeding
operations — in fact every submitted operation succeeds. -/
theorem doPriorityOperations_none_result {α : Type} (ops : List (PriorityOperation α))
    (stop : Bool) (h : (doPriorityOperations ops stop).2 = none) :
    ∀ op ∈ ops, op.result = none := by
  have hfe : firstErr (sortOps ops) = none := by
    obtain ⟨hfalse, htrue⟩ := doPriorityOperations_spec ops
    cases stop
    · rw [hfalse] at h
      exact h
    · rw [htrue] at h
      exact h
  have hff : firstFailing (sortOps ops) = none := by
    rcases hcase : firstFailing (sortOps ops) with _ | f
    · rfl
    · exfalso
      have hmemf := List.find?_some hcase
      unfold firstErr at hfe
      rw [hcase] at hfe
      simp only [Option.some_bind] at hfe
      rw [hfe] at hmemf
      cases hmemf
  intro op hop
  have hmem : op ∈ sortOps ops := ((List.perm_insertionSort opGE ops).symm).subset hop
  have := List.find?_eq_none.mp hff op hmem
  rcases hres : op.result with _ | e
  · rfl
  · exfalso
    apply this
    rw [hres]
    rfl

/-- When the loop with `stopOnError = true` reports no error, every
recorded call succeeded. -/
theorem componentOperationAux_true_none (active : List (ModBehavior × Nat))
    (err : Option String) :
    (componentOperationAux true active err).2 = none →
    ∀ entry ∈ (componentOperationAux true active err).1, entry.result = none := by
  induction active, err using componentOperationAux.induct true with
  | case1 err =>
    intro _ entry hentry
    rw [show componentOperationAux true [] err = ([], err) by
      rw [componentOperationAux]; simp] at hentry
    cases hentry
  | case2 active err hne opErr hsome =>
    rw [componentOperationAux_eq true active err hne]
    rw [if_pos hsome]
    intro h2
    exfalso
    have h2' : (doPriorityOperations (roundOps active) true).2 = none := h2
    have hs2 : (doPriorityOperations (roundOps active) true).2.isSome = true := by
      simpa using hsome
    rw [h2'] at hs2
    cases hs2
  | case3 active err hne executed opErr hnsome surv hsurv =>
    rw [componentOperationAux_eq true active err hne]
    rw [if_neg hnsome, if_pos hsurv]
    intro h2 entry hentry
    have hopErr : opErr = none := by
      rcases hcase : opErr with _ | e
      · rfl
      · exfalso
        apply hnsome
        rw [hcase]
        rfl
    obtain ⟨bn, hbn, rfl⟩ := List.mem_map.mp hentry
    show (opResult bn.1 bn.2).2 = none
    have hall := doPriorityOperations_none_result (roundOps active) true hopErr
    have hbn' : bn ∈ (doPriorityOperations (roundOps active) true).1.map
        PriorityOperation.payload := hbn
    obtain ⟨op, hop, rfl⟩ := List.mem_map.mp hbn'
    have hopmem : op ∈ roundOps active :=
      (doPriorityOperations_fst_subperm (roundOps active) true).subset hop
    obtain ⟨bn', hbn'', rfl⟩ := List.mem_map.mp hopmem
    exact hall _ hopmem
  | case4 active err hne executed opErr hnsome surv hsurv rebootErr hrsome =>
    rw [componentOperationAux_eq true active err hne]
    rw [if_neg hnsome, if_neg hsurv, if_pos hrsome]
    intro h2
    exfalso
    have h2' : (doPriorityOperations
        (rebootOps (survivorsOf (executedOf active true))) true).2 = none := h2
    have hs2 : (doPriorityOperations
        (rebootOps (survivorsOf (executedOf active true))) true).2.isSome = true := by
      simpa using hrsome
    rw [h2'] at hs2
    cases hs2
  | case5 active err hne executed opErr hnsome err1 surv hsurv rebootErr hnrsome ih =>
    rw [componentOperationAux_eq true active err hne]
    rw [if_neg hnsome, if_neg hsurv, if_neg hnrsome]
    intro h2 entry hentry
    have hopErr : opErr = none := by
      rcases hcase : opErr with _ | e
      · rfl
      · exfalso
        apply hnsome
        rw [hcase]
        rfl
    rcases List.mem_append.mp hentry with hround | hnext
    · obtain ⟨bn, hbn, rfl⟩ := List.mem_map.mp hround
      show (opResult bn.1 bn.2).2 = none
      have hall := doPriorityOperations_none_result (roundOps active) true hopErr
      have hbn' : bn ∈ (doPriorityOperations (roundOps active) true).1.map
          PriorityOperation.payload := hbn
      obtain ⟨op, hop, rfl⟩ := List.mem_map.mp hbn'
      have hopmem : op ∈ roundOps active :=
        (doPriorityOperations_fst_subperm (roundOps active) true).subset hop
      obtain ⟨bn', hbn'', rfl⟩ := List.mem_map.mp hopmem
      exact hall _ hopmem
    · exact ih h2 entry hnext

/-- Every recorded call belongs to a component of the in-flight set and
records exactly that component's behaviour at its call index. -/
theorem componentOperationAux_log_mem (stop : Bool) :
    ∀ (active : List (ModBehavior × Nat)) (err : Option String),
    ∀ entry ∈ (componentOperationAux stop active err).1,
    ∃ bn : ModBehavior × Nat, bn.1 ∈ active.map Prod.fst ∧
      entry = { id := bn.1.id, callIdx := bn.2, rebootRequired := (opResult bn.1 bn.2).1,
                result := (opResult bn.1 bn.2).2 } := by
  have hround : ∀ (active : List (ModBehavior × Nat)),
      ∀ entry ∈ callsOf (executedOf active stop),
      ∃ bn : ModBehavior × Nat, bn.1 ∈ active.map Prod.fst ∧
        entry = { id := bn.1.id, callIdx := bn.2,
                  rebootRequired := (opResult bn.1 bn.2).1,
                  result := (opResult bn.1 bn.2).2 } := by
    intro active entry hentry
    obtain ⟨bn, hbn, rfl⟩ := List.mem_map.mp hentry
    have hmem : bn ∈ active := (executedOf_subperm active stop).subset hbn
    exact ⟨bn, List.mem_map.mpr ⟨bn, hmem, rfl⟩, rfl⟩
  intro active err
  induction active, err using componentOperationAux.induct stop with
  | case1 err =>
    intro entry hentry
    rw [show componentOperationAux stop [] err = ([], err) by
      rw [componentOperationAux]; simp] at hentry
    cases hentry
  | case2 active err hne opErr hsome =>
    rw [componentOperationAux_eq stop active err hne, if_pos hsome]
    exact hround active
  | case3 active err hne executed opErr hnsome surv hsurv =>
    rw [componentOperationAux_eq stop active err hne, if_neg hnsome, if_pos hsurv]
    exact hround active
  | case4 active err hne executed opErr hnsome surv hsurv rebootErr hrsome =>
    rw [componentOperationAux_eq stop active err hne, if_neg hnsome, if_neg hsurv,
      if_pos hrsome]
    exact hround active
  | case5 active err hne executed opErr hnsome err1 surv hsurv rebootErr hnrsome ih =>
    rw [componentOperationAux_eq stop active err hne, if_neg hnsome, if_neg hsurv,
      if_neg hnrsome]
    intro entry hentry
    rcases List.mem_append.mp hentry with hcur | hnext
    · exact hround active entry hcur
    · obtain ⟨bn, hbnmem, hshape⟩ := ih entry hnext
      refine ⟨bn, ?_, hshape⟩
      obtain ⟨y, hy, hyeq⟩ := List.mem_map.mp hbnmem
      obtain ⟨x, hx, rfl⟩ := List.mem_map.mp hy
      have hxa : x ∈ active :=
        (executedOf_subperm active stop).subset ((survivorsOf_sublist _).subset hx)
      rw [← hyeq]
      exact List.mem_map.mpr ⟨x, hxa, rfl⟩

/-- A single component whose first call errors makes exactly one call
and the loop with `stopOnError = true` returns that error. -/
theorem componentOperation_single_error (b : ModBehavior) (e : String)
    (hb : opResult b 0 = (false, some e)) :
    componentOperation true [b] =
      ([{ id := b.id, callIdx := 0, rebootRequired := false, result := some e }],
        some e) := by
  have h1 : (opResult b 0).1 = false := by rw [hb]
  have h2 : (opResult b 0).2 = some e := by rw [hb]
  show componentOperationAux true [(b, 0)] none = _
  rw [componentOperationAux_eq true [(b, 0)] none (by simp)]
  have hdpo : doPriorityOperations (roundOps [(b, (0 : Nat))]) true =
      ([{ priority := b.updatePriority, payload := (b, 0), result := (opResult b 0).2 }],
        (opResult b 0).2) := by
    show doPriorityOperations
      [{ priority := b.updatePriority, payload := (b, 0), result := (opResult b 0).2 }]
      true = _
    rw [doPriorityOperations_singleton]
  have hexec : executedOf [(b, (0 : Nat))] true = [(b, 0)] := by
    unfold executedOf
    rw [hdpo]
    rfl
  rw [hdpo, hexec, h2]
  simp only [Option.isSome_some, Bool.and_true, Bool.true_and, if_pos]
  simp [callsOf, h1, h2]

/-- C7: in an update transition, whenever a component's `Update()`
returns `rebootRequired = false` with no error at an executed call, the
module's `GetVendorVersion` is compared against the vendor version
requested for that component: on mismatch the call is recorded with the
mismatch error and the transition moves to Failed instead of settling
in Updated. -/
theorem claim_c7_vendor_mismatch_fails (modules : List UpdateModuleModel)
    (requested : String → String)
    (hND : (modules.map UpdateModuleModel.id).Nodup)
    (m : UpdateModuleModel) (hm : m ∈ modules) (v : String)
    (hv : m.vendorVersion = Except.ok v) (hmis : v ≠ requested m.id)
    (entry : OpCall) (hentry : entry ∈ (onUpdateState modules requested).log)
    (hid : entry.id = m.id)
    (hterm : m.updateResults.get? entry.callIdx = some (false, none)) :
    entry.result = some ("versions mismatch in request " ++ requested m.id ++
      " and updated module " ++ v) ∧
    entry.rebootRequired = false ∧
    (onUpdateState modules requested).fsmState = .failed := by
  have hentry' : entry ∈ (componentOperationAux true
      ((modules.map (updateBehavior requested)).map (fun b => (b, 0))) none).1 := by
    rw [onUpdateState_log] at hentry
    exact hentry
  obtain ⟨bn, hbnmem, hshape⟩ := componentOperationAux_log_mem true _ none entry hentry'
  have hb1 : bn.1 ∈ modules.map (updateBehavior requested) := by
    obtain ⟨y, hy, hyeq⟩ := List.mem_map.mp hbnmem
    obtain ⟨b, hb, rfl⟩ := List.mem_map.mp hy
    rw [← hyeq]
    exact hb
  obtain ⟨m', hm', hbeq⟩ := List.mem_map.mp hb1
  have hmm : m' = m := by
    apply List.inj_on_of_nodup_map hND hm' hm
    have h1 : bn.1.id = m.id := by
      rw [hshape] at hid
      exact hid
    rw [← hbeq] at h1
    exact h1
  subst hmm
  have hterm' : m'.updateResults.get? bn.2 = some (false, none) := by
    rw [hshape] at hterm
    exact hterm
  obtain ⟨hklen, hget⟩ := List.get?_eq_some.mp hterm'
  have hop : opResult bn.1 bn.2 = (false,
      some ("versions mismatch in request " ++ requested m'.id ++
        " and updated module " ++ v)) := by
    rw [← hbeq]
    show (m'.updateResults.map (updateOpCall m' (requested m'.id))).getD bn.2 (false, none) =
      _
    rw [List.getD_eq_getElem _ _ (by simpa using hklen)]
    rw [List.getElem_map]
    have hgetE : m'.updateResults[bn.2] = (false, none) := by
      rw [← hget]
      rfl
    rw [hgetE]
    unfold updateOpCall
    rw [hv]
    show (if v ≠ requested m'.id then
      ((false, some ("versions mismatch in request " ++ requested m'.id ++
        " and updated module " ++ v)) : Bool × Option String)
      else (false, none)) = _
    rw [if_pos hmis]
  refine ⟨?_, ?_, ?_⟩
  · rw [hshape]
    show (opResult bn.1 bn.2).2 = _
    rw [hop]
  · rw [hshape]
    show (opResult bn.1 bn.2).1 = false
    rw [hop]
  · rcases hloop : (componentOperation true (modules.map (updateBehavior requested))).2
      with _ | e2
    · exfalso
      have hall := componentOperationAux_true_none
        ((modules.map (updateBehavior requested)).map (fun b => (b, 0))) none hloop
        entry hentry'
      rw [hshape] at hall
      have hall' : (opResult bn.1 bn.2).2 = none := hall
      rw [hop] at hall'
      cases hall'
    · show (onUpdateState modules requested).fsmState = .failed
      simp [onUpdateState, hloop]

/-- Witness for C7: a single component whose only Update call is
terminal with a mismatching vendor version. -/
theorem claim_c7_vendor_mismatch_fails_witness :
    (("2.0" : String) ≠ "1.0") ∧
    ({ id := "c1", callIdx := 0, rebootRequired := false,
       result := some "versions mismatch in request 1.0 and updated module 2.0" }
      : OpCall) ∈ (onUpdateState
        [{ id := "c1", updatePriority := 0, rebootPriority := 0,
           updateResults := [(false, none)], vendorVersion := .ok "2.0",
           rebootResults := [] }] (fun _ => "1.0")).log ∧
    (onUpdateState
      [{ id := "c1", updatePriority := 0, rebootPriority := 0,
         updateResults := [(false, none)], vendorVersion := .ok "2.0",
         rebootResults := [] }] (fun _ => "1.0")).fsmState = .failed := by
  have hb : opResult (updateBehavior (fun _ => "1.0")
      { id := "c1", updatePriority := 0, rebootPriority := 0,
        updateResults := [(false, none)], vendorVersion := .ok "2.0",
        rebootResults := [] }) 0 =
      (false, some "versions mismatch in request 1.0 and updated module 2.0") := by
    decide
  have hlog := componentOperation_single_error _ _ hb
  have hlogEq : (onUpdateState
      [{ id := "c1", updatePriority := 0, rebootPriority := 0,
         updateResults := [(false, none)], vendorVersion := .ok "2.0",
         rebootResults := [] }] (fun _ => "1.0")).log =
      [{ id := "c1", callIdx := 0, rebootRequired := false,
         result := some "versions mismatch in request 1.0 and updated module 2.0" }] := by
    rw [onUpdateState_log]
    show (componentOperation true [updateBehavior (fun _ => "1.0")
      { id := "c1", updatePriority := 0, rebootPriority := 0,
        updateResults := [(false, none)], vendorVersion := .ok "2.0",
        rebootResults := [] }]).1 = _
    rw [hlog]
    rfl
  have hmementry : ({ id := "c1", callIdx := 0, rebootRequired := false,
                      result := some "versions mismatch in request 1.0 and updated module 2.0" }
      : OpCall) ∈ (onUpdateState
        [{ id := "c1", updatePriority := 0, rebootPriority := 0,
           updateResults := [(false, none)], vendorVersion := .ok "2.0",
           rebootResults := [] }] (fun _ => "1.0")).log := by
    rw [hlogEq]
    exact List.mem_singleton.mpr rfl
  have h := claim_c7_vendor_mismatch_fails
    [{ id := "c1", updatePriority := 0, rebootPriority := 0,
       updateResults := [(false, none)], vendorVersion := .ok "2.0",
       rebootResults := [] }] (fun _ => "1.0") (by decide)
    { id := "c1", updatePriority := 0, rebootPriority := 0,
      updateResults := [(false, none)], vendorVersion := .ok "2.0",
      rebootResults := [] } (List.mem_singleton.mpr rfl)
    "2.0" rfl (by decide)
    { id := "c1", callIdx := 0, rebootRequired := false,
      result := some "versions mismatch in request 1.0 and updated module 2.0" }
    hmementry rfl (by decide)
  exact ⟨by decide, hmementry, h.2.2⟩

/-! ## `Handler.onStateChanged` (claim C9) -/

/-- The persisted handler state blob (`handlerState`; the JSON
serialisation of `saveState` is modelled as the identity). -/
structure PersistedState where
  updateState : UpdateState
  error : String
  componentStatuses : List (String × ComponentStatusInfo)
  deriving DecidableEq, Repr

/-- `Handler.onStateChanged`: record the FSM's current state; when it
is Idle, refresh the live component versions (`getVersions` touches
only the live `handler.componentStatuses` map, not the persisted
statuses), delete every in-flight component status whose status is not
Error, and remove and recreate the download directory when one is
configured; finally persist the state (`saveState`, modelled as always
succeeding — its failure branch is not modelled).  Returns the
persisted blob and the download directory contents. -/
def onStateChanged (current : UpdateState) (error : String)
    (statuses : List (String × ComponentStatusInfo)) (downloadDirSet : Bool)
    (dlFiles : List String) : PersistedState × List String :=
  let statuses1 := if current = .idle then
      statuses.filter (fun kv => kv.2.status == CompStatus.error)
    else statuses
  let dlFiles1 := if current = .idle ∧ downloadDirSet = true then [] else dlFiles
  ({ updateState := current, error := error, componentStatuses := statuses1 }, dlFiles1)

/-- C9: on landing in Idle (with a download directory configured), the
persisted component-status map keeps exactly its Error entries — each
unchanged — the download directory is emptied and recreated, and the
resulting state is what gets persisted. -/
theorem claim_c9_idle_purge (current : UpdateState) (error : String)
    (statuses : List (String × ComponentStatusInfo)) (downloadDirSet : Bool)
    (dlFiles : List String)
    (hcur : current = .idle) (hdir : downloadDirSet = true) :
    (∀ kv, kv ∈ (onStateChanged current error statuses downloadDirSet
        dlFiles).1.componentStatuses ↔
      (kv ∈ statuses ∧ kv.2.status = CompStatus.error)) ∧
    (onStateChanged current error statuses downloadDirSet dlFiles).2 = [] ∧
    (onStateChanged current error statuses downloadDirSet dlFiles).1 =
      { updateState := .idle, error := error,
        componentStatuses :=
          statuses.filter (fun kv => kv.2.status == CompStatus.error) } := by
  subst hcur
  subst hdir
  refine ⟨?_, ?_, ?_⟩
  · intro kv
    show kv ∈ (if (UpdateState.idle = UpdateState.idle) then
        statuses.filter (fun kv => kv.2.status == CompStatus.error)
      else statuses) ↔ _
    rw [if_pos rfl]
    rw [List.mem_filter]
    simp
  · show (if (UpdateState.idle = UpdateState.idle ∧ true = true) then [] else dlFiles) = []
    rw [if_pos ⟨rfl, rfl⟩]
  · show ({ updateState := .idle,
            error := error,
            componentStatuses :=
              if (UpdateState.idle = UpdateState.idle) then
                statuses.filter (fun kv => kv.2.status == CompStatus.error)
              else statuses } : PersistedState) = _
    rw [if_pos rfl]

/-- Witness for C9: a status set with one Error entry and one
Installing entry. -/
theorem claim_c9_idle_purge_witness :
    (UpdateState.idle = UpdateState.idle) ∧
    (onStateChanged .idle "e0"
      [("a", { id := "a", vendorVersion := "1", aosVersion := 1,
               status := CompStatus.error, error := "boom" }),
       ("b", { id := "b", vendorVersion := "2", aosVersion := 2,
               status := CompStatus.installing, error := "" })]
      true ["f1", "f2"]).2 = [] ∧
    (onStateChanged .idle "e0"
      [("a", { id := "a", vendorVersion := "1", aosVersion := 1,
               status := CompStatus.error, error := "boom" }),
       ("b", { id := "b", vendorVersion := "2", aosVersion := 2,
               status := CompStatus.installing, error := "" })]
      true ["f1", "f2"]).1.componentStatuses =
      [("a", { id := "a", vendorVersion := "1", aosVersion := 1,
               status := CompStatus.error, error := "boom" })] := by
  have h := claim_c9_idle_purge .idle "e0"
    [("a", { id := "a", vendorVersion := "1", aosVersion := 1,
             status := CompStatus.error, error := "boom" }),
     ("b", { id := "b", vendorVersion := "2", aosVersion := 2,
             status := CompStatus.installing, error := "" })]
    true ["f1", "f2"] rfl rfl
  refine ⟨rfl, h.2.1, ?_⟩
  rw [h.2.2]
  decide

end UpdateHandler
